import Mathlib

/-!
Shallow embedding of the grainlify backend's webhook ingestion and sync-job
pipeline, translated from the Go sources:

* `internal/ingest` (`GitHubWebhookIngestor.Ingest`)
* `internal/handlers/github_webhooks.go` (`Receive`, `verifyGitHubSignature`,
  `hexEncodeLower`)
* `internal/syncjobs/worker.go` (`processOne`, `syncIssues`, `syncPRs`)
* `migrations/000003_github_issue_pr_sync.up.sql` (table shapes, defaults)
* `migrations/000008/000009` (issue `assignees`/`labels`/`comments` defaults)

Database tables are modelled as Lean lists of row structures; SQL `now()` is an
explicit `Nat` clock parameter; UUID generation is a `nextJobId` counter on the
state; JSONB blobs are carried as opaque `String`s; `NULL`able columns are
`Option`s.  Byte strings (request bodies, HMAC digests) are `List Nat`.
-/

/-- A row of the `projects` table (only the columns this pipeline reads). -/
structure ProjectRow where
  id : Nat
  githubFullName : String
  ownerUserId : Nat
deriving Repr, DecidableEq

/-- `ghIssuePayload`: the issue object of a webhook envelope. -/
structure GhIssuePayload where
  id : Int
  number : Int
  state : String
  title : String
  body : String
  htmlURL : String
  userLogin : String
  createdAt : Option Nat
  updatedAt : Option Nat
  closedAt : Option Nat
deriving Repr, DecidableEq

/-- `ghPullRequestPayload`: the pull-request object of a webhook envelope. -/
structure GhPullRequestPayload where
  id : Int
  number : Int
  state : String
  title : String
  body : String
  htmlURL : String
  userLogin : String
  merged : Bool
  mergedAt : Option Nat
  createdAt : Option Nat
  updatedAt : Option Nat
  closedAt : Option Nat
deriving Repr, DecidableEq

/-- `ghWebhookEnvelope`: the minimal envelope parsed from a webhook payload.
`repository` carries just the `full_name` field of `ghRepoPayload`. -/
structure GhWebhookEnvelope where
  action : String
  repository : Option String
  issue : Option GhIssuePayload
  pullRequest : Option GhPullRequestPayload
deriving Repr, DecidableEq

/-- The zero value a failed `json.Unmarshal` leaves behind. -/
def emptyEnvelope : GhWebhookEnvelope :=
  { action := "", repository := none, issue := none, pullRequest := none }

/-- `events.GitHubWebhookReceived`: the bus/inline event structure. -/
structure GitHubWebhookReceived where
  deliveryID : String
  event : String
  action : String
  repoFullName : String
  payload : List Nat
deriving Repr, DecidableEq

/-- A row of the `github_events` audit table (`delivery_id` is primary key). -/
structure GithubEventRow where
  deliveryId : String
  projectId : Option Nat
  repoFullName : String
  event : String
  action : Option String
  payload : List Nat
  receivedAt : Nat
deriving Repr, DecidableEq

/-- A row of `github_issues`.  `assignees`, `labels` and `comments` are JSONB
columns with default `[]`; `comments_count` defaults to `0`. -/
structure IssueRow where
  projectId : Nat
  githubIssueId : Int
  number : Int
  state : String
  title : String
  body : String
  authorLogin : String
  url : String
  assignees : String
  labels : String
  commentsCount : Int
  comments : String
  createdAtGithub : Option Nat
  updatedAtGithub : Option Nat
  closedAtGithub : Option Nat
  lastSeenAt : Nat
deriving Repr, DecidableEq

/-- A row of `github_pull_requests`. -/
structure PullRequestRow where
  projectId : Nat
  githubPrId : Int
  number : Int
  state : String
  title : String
  body : String
  authorLogin : String
  url : String
  merged : Bool
  mergedAtGithub : Option Nat
  createdAtGithub : Option Nat
  updatedAtGithub : Option Nat
  closedAtGithub : Option Nat
  lastSeenAt : Nat
deriving Repr, DecidableEq

/-- A row of the `sync_jobs` queue table. -/
structure SyncJobRow where
  id : Nat
  projectId : Nat
  jobType : String
  status : String
  runAt : Nat
  attempts : Nat
  lastError : Option String
  lockedAt : Option Nat
  lockedBy : Option Nat
  createdAt : Nat
  updatedAt : Nat
deriving Repr, DecidableEq

/-- The database state visible to the pipeline.  `nextJobId` models
`gen_random_uuid()` for `sync_jobs` inserts as a fresh-id counter. -/
structure DBState where
  projects : List ProjectRow
  githubEvents : List GithubEventRow
  githubIssues : List IssueRow
  githubPullRequests : List PullRequestRow
  syncJobs : List SyncJobRow
  nextJobId : Nat
deriving Repr, DecidableEq

/-- Whitespace as `strings.TrimSpace` sees it (the ASCII cases of
`unicode.IsSpace`; all strings this pipeline trims are ASCII). -/
def isSpaceChar (c : Char) : Bool :=
  c = ' ' || c = '\t' || c = '\n' || c = '\x0b' || c = '\x0c' || c = '\r'

/-- Go's `strings.TrimSpace`: drop leading and trailing whitespace. -/
def goTrimSpace (s : String) : String :=
  String.mk (((s.data.dropWhile isSpaceChar).reverse.dropWhile isSpaceChar).reverse)

/-- `nullIfEmpty` from the ingest package: empty-after-trim strings become SQL
`NULL`. -/
def nullIfEmpty (s : String) : Option String :=
  if goTrimSpace s = "" then none else some s

/-- `SELECT id FROM projects WHERE github_full_name = $1` (first match). -/
def lookupProject (projects : List ProjectRow) (fullName : String) : Option Nat :=
  (projects.find? (fun p => p.githubFullName == fullName)).map (fun p => p.id)

/-- The repository full name the ingestor resolves: the event's trimmed
`RepoFullName`, falling back to the envelope's `repository.full_name`. -/
def resolvedRepo (env : GhWebhookEnvelope) (e : GitHubWebhookReceived) : String :=
  let r0 := goTrimSpace e.repoFullName
  if r0 = "" then
    match env.repository with
    | some f => goTrimSpace f
    | none => r0
  else r0

/-- The action string the ingestor resolves (event field, else envelope). -/
def resolvedAction (env : GhWebhookEnvelope) (e : GitHubWebhookReceived) : String :=
  let a0 := goTrimSpace e.action
  if a0 = "" then goTrimSpace env.action else a0

/-- The project id the ingestor maps the event to (none when the repo name is
empty or no registered project carries it). -/
def resolvedProject (projects : List ProjectRow) (env : GhWebhookEnvelope)
    (e : GitHubWebhookReceived) : Option Nat :=
  let repo := resolvedRepo env e
  if repo = "" then none else lookupProject projects repo

/-- `INSERT INTO github_events ... ON CONFLICT (delivery_id) DO NOTHING`. -/
def insertEventIgnore (rows : List GithubEventRow) (r : GithubEventRow) :
    List GithubEventRow :=
  if rows.any (fun x => x.deliveryId == r.deliveryId) then rows else rows ++ [r]

/-- The shape shared by every `INSERT ... ON CONFLICT (key) DO UPDATE`
statement of this pipeline: when some row matches the unique key, update every
matching row (there is at most one, the key being unique); otherwise append
the freshly inserted row. -/
def sqlUpsert {α : Type} (key : α → Bool) (upd : α → α) (ins : α)
    (rows : List α) : List α :=
  if rows.any key then rows.map (fun r => if key r then upd r else r)
  else rows ++ [ins]

/-- The `(project_id, github_issue_id)` unique key of `github_issues`. -/
def issueKey (pid : Nat) (iid : Int) (r : IssueRow) : Bool :=
  r.projectId == pid && r.githubIssueId == iid

/-- The `(project_id, github_pr_id)` unique key of `github_pull_requests`. -/
def prKey (pid : Nat) (iid : Int) (r : PullRequestRow) : Bool :=
  r.projectId == pid && r.githubPrId == iid

/-- The `DO UPDATE SET` column list of the ingestor's issue upsert. -/
def webhookIssueUpdate (p : GhIssuePayload) (now : Nat) (r : IssueRow) : IssueRow :=
  { r with
    number := p.number, state := p.state, title := p.title,
    body := p.body, authorLogin := p.userLogin, url := p.htmlURL,
    createdAtGithub := p.createdAt, updatedAtGithub := p.updatedAt,
    closedAtGithub := p.closedAt, lastSeenAt := now }

/-- The inserted row of the ingestor's issue upsert (assignees/labels/comments
columns keep their schema defaults). -/
def webhookIssueInsert (pid : Nat) (p : GhIssuePayload) (now : Nat) : IssueRow :=
  { projectId := pid, githubIssueId := p.id, number := p.number,
    state := p.state, title := p.title, body := p.body,
    authorLogin := p.userLogin, url := p.htmlURL,
    assignees := "[]", labels := "[]", commentsCount := 0,
    comments := "[]", createdAtGithub := p.createdAt,
    updatedAtGithub := p.updatedAt, closedAtGithub := p.closedAt,
    lastSeenAt := now }

/-- The ingestor's issue upsert (`ON CONFLICT (project_id, github_issue_id)
DO UPDATE`): the webhook variant writes number/state/title/body/author/url and
the three GitHub timestamps, plus `last_seen_at = now()`. -/
def upsertIssueWebhook (rows : List IssueRow) (pid : Nat) (p : GhIssuePayload)
    (now : Nat) : List IssueRow :=
  sqlUpsert (issueKey pid p.id) (webhookIssueUpdate p now)
    (webhookIssueInsert pid p now) rows

/-- The `DO UPDATE SET` column list of the ingestor's pull-request upsert. -/
def webhookPRUpdate (p : GhPullRequestPayload) (now : Nat)
    (r : PullRequestRow) : PullRequestRow :=
  { r with
    number := p.number, state := p.state, title := p.title,
    body := p.body, authorLogin := p.userLogin, url := p.htmlURL,
    merged := p.merged, mergedAtGithub := p.mergedAt,
    createdAtGithub := p.createdAt, updatedAtGithub := p.updatedAt,
    closedAtGithub := p.closedAt, lastSeenAt := now }

/-- The inserted row of the ingestor's pull-request upsert. -/
def webhookPRInsert (pid : Nat) (p : GhPullRequestPayload) (now : Nat) :
    PullRequestRow :=
  { projectId := pid, githubPrId := p.id, number := p.number,
    state := p.state, title := p.title, body := p.body,
    authorLogin := p.userLogin, url := p.htmlURL,
    merged := p.merged, mergedAtGithub := p.mergedAt,
    createdAtGithub := p.createdAt, updatedAtGithub := p.updatedAt,
    closedAtGithub := p.closedAt, lastSeenAt := now }

/-- The ingestor's pull-request upsert (`ON CONFLICT (project_id, github_pr_id)
DO UPDATE`). -/
def upsertPRWebhook (rows : List PullRequestRow) (pid : Nat)
    (p : GhPullRequestPayload) (now : Nat) : List PullRequestRow :=
  sqlUpsert (prKey pid p.id) (webhookPRUpdate p now)
    (webhookPRInsert pid p now) rows

/-- Effect 1 of `Ingest`: the auditable event record, inserted-or-ignored on
the `delivery_id` primary key, and only when the delivery id is non-empty. -/
def auditStage (pidOpt : Option Nat) (repo : String) (act : String)
    (e : GitHubWebhookReceived) (now : Nat) (s : DBState) : DBState :=
  let auditRow : GithubEventRow :=
    { deliveryId := e.deliveryID, projectId := pidOpt,
      repoFullName := repo, event := e.event,
      action := nullIfEmpty act, payload := e.payload, receivedAt := now }
  if e.deliveryID = "" then s
  else { s with githubEvents := insertEventIgnore s.githubEvents auditRow }

/-- Effect 2 of `Ingest`: the snapshot upserts, performed only for a mapped
project, for an `issues` event carrying an issue object and for a
`pull_request`/`pull_request_review` event carrying a pull-request object. -/
def snapshotStage (pidOpt : Option Nat) (env : GhWebhookEnvelope)
    (e : GitHubWebhookReceived) (now : Nat) (s : DBState) : DBState :=
  match pidOpt with
  | none => s
  | some pid =>
    let sA : DBState :=
      match env.issue with
      | some issue =>
        if e.event = "issues" then
          { s with githubIssues := upsertIssueWebhook s.githubIssues pid issue now }
        else s
      | none => s
    match env.pullRequest with
    | some pr =>
      if e.event = "pull_request" ∨ e.event = "pull_request_review" then
        { sA with githubPullRequests :=
            upsertPRWebhook sA.githubPullRequests pid pr now }
      else sA
    | none => sA

/-- The two follow-up job rows one enqueue inserts. -/
def followUpJobs (pid : Nat) (firstId : Nat) (now : Nat) : List SyncJobRow :=
  [{ id := firstId, projectId := pid, jobType := "sync_issues",
     status := "pending", runAt := now, attempts := 0,
     lastError := none, lockedAt := none, lockedBy := none,
     createdAt := now, updatedAt := now },
   { id := firstId + 1, projectId := pid, jobType := "sync_prs",
     status := "pending", runAt := now, attempts := 0,
     lastError := none, lockedAt := none, lockedBy := none,
     createdAt := now, updatedAt := now }]

/-- Effect 3 of `Ingest`: enqueue the `sync_issues`/`sync_prs` pending jobs —
only when the project is mapped and the event is `issues`, `pull_request` or
`push`. -/
def enqueueStage (pidOpt : Option Nat) (e : GitHubWebhookReceived) (now : Nat)
    (s : DBState) : DBState :=
  match pidOpt with
  | none => s
  | some pid =>
    if e.event = "issues" ∨ e.event = "pull_request" ∨ e.event = "push" then
      { s with syncJobs := s.syncJobs ++ followUpJobs pid s.nextJobId now,
               nextJobId := s.nextJobId + 2 }
    else s

/-- `GitHubWebhookIngestor.Ingest`, with JSON parsing abstracted as the
function `parse` (a failed `json.Unmarshal` yields `none`, read back as the
zero-valued envelope).  The three effects run in source order. -/
def ingest (parse : List Nat → Option GhWebhookEnvelope)
    (e : GitHubWebhookReceived) (now : Nat) (s : DBState) : DBState :=
  let env := (parse e.payload).getD emptyEnvelope
  let pidOpt := resolvedProject s.projects env e
  enqueueStage pidOpt e now
    (snapshotStage pidOpt env e now
      (auditStage pidOpt (resolvedRepo env e) (resolvedAction env e) e now s))

/-- Number of audit rows carrying a given delivery id. -/
def countDelivery (s : DBState) (d : String) : Nat :=
  s.githubEvents.countP (fun r => r.deliveryId == d)

/-- `hexEncodeLower`'s digit table lookup (`hextable[i]`); indices are always
below 16 in the source, the default is never hit. -/
def hexDigit (n : Nat) : Char :=
  "0123456789abcdef".toList.getD n 'x'

/-- `hexEncodeLower` from the handlers package: each byte `v` becomes the two
characters `hextable[v>>4]`, `hextable[v&0x0f]`. -/
def hexEncodeLower (b : List Nat) : String :=
  String.mk (b.foldr (fun v acc => hexDigit ((v / 16) % 16) :: hexDigit (v % 16) :: acc) [])

/-- Go's `strings.HasPrefix`. -/
def goStartsWith (s pre : String) : Bool :=
  pre.data.isPrefixOf s.data

/-- `strings.TrimPrefix` after the affirmative `HasPrefix` check: drop the
first `n` characters (`sha256=` is 7 one-byte characters). -/
def goDropHead (s : String) (n : Nat) : String :=
  String.mk (s.data.drop n)

/-- Go's `strings.ToLower` on the ASCII range (hex digests are ASCII). -/
def goLowerChar (c : Char) : Char :=
  if 'A' ≤ c && c ≤ 'Z' then Char.ofNat (c.toNat + 32) else c

/-- Lowercase a string character-wise. -/
def goToLower (s : String) : String :=
  String.mk (s.data.map goLowerChar)

/-- `verifyGitHubSignature`: the header must start with `sha256=`; the rest,
lowercased, is compared (constant time in the source, plain equality here)
against the hex HMAC-SHA256 of the body under the secret.  The HMAC itself is
abstracted as the function argument `mac`. -/
def verifyGitHubSignature (mac : String → List Nat → List Nat)
    (secret : String) (body : List Nat) (header : String) : Bool :=
  if goStartsWith header "sha256=" then
    let gotHex := goToLower (goDropHead header 7)
    let wantHex := hexEncodeLower (mac secret body)
    gotHex == wantHex
  else false

/-- The inbound request, reduced to what `Receive` reads. -/
structure WebhookRequest where
  method : String
  body : List Nat
  deliveryHeader : String
  eventHeader : String
  sigHeader : String
deriving Repr, DecidableEq

/-- Outcome of one `Receive` call: the HTTP status and the database state
afterwards. -/
structure ReceiveResult where
  status : Nat
  db : DBState
deriving Repr, DecidableEq

/-- `GitHubWebhooksHandler.Receive`.  In source order: an `OPTIONS` preflight
is answered 200 immediately; an empty configured secret is 503; a failed
signature check is 401; otherwise the envelope is parsed tolerantly (parse
failure leaves the routing fields empty), and either the event is published to
the bus (`busPresent`, best effort: `publishOk` is ignored) or ingested inline
(`ingPresent`); the response is 200 in every one of those cases. -/
def receive (mac : String → List Nat → List Nat)
    (parse : List Nat → Option GhWebhookEnvelope)
    (secret : String) (busPresent : Bool) (publishOk : Bool) (ingPresent : Bool)
    (req : WebhookRequest) (now : Nat) (s : DBState) : ReceiveResult :=
  if req.method = "OPTIONS" then { status := 200, db := s }
  else if secret = "" then { status := 503, db := s }
  else if ¬ verifyGitHubSignature mac secret req.body req.sigHeader then
    { status := 401, db := s }
  else
    let delivery := goTrimSpace req.deliveryHeader
    let event := goTrimSpace req.eventHeader
    let repoFullName :=
      match parse req.body with
      | some env => goTrimSpace (env.repository.getD "")
      | none => ""
    let action :=
      match parse req.body with
      | some env => goTrimSpace env.action
      | none => ""
    let ev : GitHubWebhookReceived :=
      { deliveryID := delivery, event := event, action := action,
        repoFullName := repoFullName, payload := req.body }
    if busPresent then { status := 200, db := s }
    else if ingPresent then { status := 200, db := ingest parse ev now s }
    else { status := 200, db := s }

/-- A bulk list item as the worker consumes it (`github.IssueListItem` with the
two `json.Marshal` outputs and the comment fetch already folded into opaque
JSON strings, as the worker passes them to the upsert). -/
structure BulkIssueItem where
  id : Int
  number : Int
  state : String
  title : String
  body : String
  htmlURL : String
  userLogin : String
  assigneesJson : String
  labelsJson : String
  commentsCount : Int
  commentsJson : String
  isPullRequest : Bool
deriving Repr, DecidableEq

/-- A bulk PR list item (`github.PRListItem`). -/
structure BulkPRItem where
  id : Int
  number : Int
  state : String
  title : String
  body : String
  htmlURL : String
  userLogin : String
  merged : Bool
deriving Repr, DecidableEq

/-- The `DO UPDATE SET` column list of the worker's bulk issue upsert. -/
def bulkIssueUpdate (it : BulkIssueItem) (now : Nat) (r : IssueRow) : IssueRow :=
  { r with
    number := it.number, state := it.state, title := it.title,
    body := it.body, authorLogin := it.userLogin, url := it.htmlURL,
    assignees := it.assigneesJson, labels := it.labelsJson,
    commentsCount := it.commentsCount, comments := it.commentsJson,
    lastSeenAt := now }

/-- The inserted row of the worker's bulk issue upsert (the three GitHub
timestamp columns keep their `NULL` defaults). -/
def bulkIssueInsert (pid : Nat) (it : BulkIssueItem) (now : Nat) : IssueRow :=
  { projectId := pid, githubIssueId := it.id, number := it.number,
    state := it.state, title := it.title, body := it.body,
    authorLogin := it.userLogin, url := it.htmlURL,
    assignees := it.assigneesJson, labels := it.labelsJson,
    commentsCount := it.commentsCount, comments := it.commentsJson,
    createdAtGithub := none, updatedAtGithub := none,
    closedAtGithub := none, lastSeenAt := now }

/-- The worker's bulk issue upsert (from `syncIssues`): writes
number/state/title/body/author/url, the assignees/labels JSON, the comment
count and comment JSON, and `last_seen_at = now()`. -/
def upsertIssueBulk (rows : List IssueRow) (pid : Nat) (it : BulkIssueItem)
    (now : Nat) : List IssueRow :=
  sqlUpsert (issueKey pid it.id) (bulkIssueUpdate it now)
    (bulkIssueInsert pid it now) rows

/-- The page loop of `syncIssues`/`syncPRs`, tracking which page numbers are
fetched.  `fuel` counts the remaining iterations of the source's
`for page := 1; page <= 50; page++` loop (50 at entry); an errored fetch aborts
with that error, an empty page ends the pass successfully, and exhausting the
hard 50-page ceiling also returns success.  (The rate-limiter wait and the
per-issue upserts/comment fetches happen between page fetches and do not
affect which pages are fetched.) -/
def syncPagesGo (fetch : Nat → Except String (List BulkIssueItem)) :
    Nat → Nat → List Nat × Except String Unit
  | 0, _ => ([], Except.ok ())
  | fuel + 1, page =>
    match fetch page with
    | Except.error e => ([page], Except.error e)
    | Except.ok [] => ([page], Except.ok ())
    | Except.ok (_ :: _) =>
      let rest := syncPagesGo fetch fuel (page + 1)
      (page :: rest.1, rest.2)

/-- The full pass: pages from 1, at most 50. -/
def syncIssuesLoop (fetch : Nat → Except String (List BulkIssueItem)) :
    List Nat × Except String Unit :=
  syncPagesGo fetch 50 1

/-- SQL `NULLIF(s, '')`: literal comparison against the empty string. -/
def sqlNullIfEmpty (s : String) : Option String :=
  if s = "" then none else some s

/-- The terminal `UPDATE sync_jobs SET status = $2, attempts = attempts + 1,
last_error = NULLIF($3, '') ...` of `processOne`: `completed` with cleared
error on success, `failed` with the error text otherwise. -/
def finishJob (jobs : List SyncJobRow) (jid : Nat) (r : Except String Unit)
    (now : Nat) : List SyncJobRow :=
  let status := match r with | Except.ok _ => "completed" | Except.error _ => "failed"
  let lastErr := match r with | Except.ok _ => "" | Except.error e => e
  jobs.map (fun j =>
    if j.id == jid then
      { j with status := status, attempts := j.attempts + 1,
               lastError := sqlNullIfEmpty lastErr, updatedAt := now }
    else j)

/-!
The claim transaction of `Worker.processOne`, modelled at the granularity of
Postgres row locks.  A transaction is two steps: `sel` runs
`SELECT ... WHERE status = 'pending' AND run_at <= now() ORDER BY run_at ASC
FOR UPDATE SKIP LOCKED LIMIT 1`, acquiring the row lock (rows locked by other
open transactions are skipped, never blocked on); `com` runs the
`UPDATE ... SET status = 'running', locked_at, locked_by` and commits,
releasing the lock and making the transition visible.  `openTx` is the set of
open claim transactions (worker, locked job id); `log` records every committed
pending-to-running transition with the worker that performed it.
-/

/-- Global state of the queue under concurrent claimants. -/
structure ClaimState where
  jobs : List SyncJobRow
  openTx : List (Nat × Nat)
  log : List (Nat × Nat)
deriving Repr, DecidableEq

/-- One step of some worker's claim transaction. -/
inductive WorkerEvent where
  | sel (w : Nat) (now : Nat)
  | com (w : Nat) (now : Nat)
deriving Repr, DecidableEq

/-- The rows `FOR UPDATE SKIP LOCKED` can return: pending, due, and not
locked by any open transaction. -/
def dueUnlocked (s : ClaimState) (now : Nat) : List SyncJobRow :=
  s.jobs.filter (fun j =>
    j.status == "pending" && decide (j.runAt ≤ now) &&
      !(s.openTx.any (fun t => t.2 == j.id)))

/-- `ORDER BY run_at ASC LIMIT 1`: the first row of minimal `run_at`. -/
def pickMinRunAt : List SyncJobRow → Option SyncJobRow
  | [] => none
  | j :: rest => some (rest.foldl (fun a b => if b.runAt < a.runAt then b else a) j)

/-- The committed `UPDATE sync_jobs SET status = 'running', locked_at = now(),
locked_by = $2, updated_at = now() WHERE id = $1` applied to one row. -/
def commitRow (jid : Nat) (w : Nat) (now : Nat) (j : SyncJobRow) : SyncJobRow :=
  if j.id == jid then
    { j with status := "running", lockedBy := some w,
             lockedAt := some now, updatedAt := now }
  else j

/-- One transition.  A worker runs one `processOne` at a time, so `sel` only
fires for a worker with no open transaction; a `sel` finding no row is the
`pgx.ErrNoRows` rollback (no state change).  `com` flips the locked row to
`running`, stamps `locked_by`/`locked_at`, releases the lock and logs the
transition. -/
def cstep (s : ClaimState) : WorkerEvent → ClaimState
  | WorkerEvent.sel w now =>
    if s.openTx.any (fun t => t.1 == w) then s
    else
      match pickMinRunAt (dueUnlocked s now) with
      | none => s
      | some j => { s with openTx := (w, j.id) :: s.openTx }
  | WorkerEvent.com w now =>
    match s.openTx.find? (fun t => t.1 == w) with
    | none => s
    | some t =>
      { jobs := s.jobs.map (commitRow t.2 w now),
        openTx := s.openTx.filter (fun u => u.1 != w),
        log := s.log ++ [(w, t.2)] }

/-- A trace of interleaved worker steps. -/
def crun (s : ClaimState) (evs : List WorkerEvent) : ClaimState :=
  evs.foldl cstep s

/-- One complete claim transaction by worker `w` at time `now`. -/
def cround (s : ClaimState) (w : Nat) (now : Nat) : ClaimState :=
  cstep (cstep s (WorkerEvent.sel w now)) (WorkerEvent.com w now)

/-- Folding complete rounds (one per list entry, arbitrary workers/times). -/
def crounds (s : ClaimState) : List (Nat × Nat) → ClaimState
  | [] => s
  | (w, now) :: rest => crounds (cround s w now) rest

/-- Consistency of a claim state: job ids are unique (primary key); no worker
has two open transactions; no row is locked twice; every locked row is a
pending row of the table; every logged transition's row is `running`; no row
was ever logged twice. -/
def ClaimInv (s : ClaimState) : Prop :=
  (s.jobs.map (fun j => j.id)).Nodup ∧
  (s.openTx.map (fun t => t.1)).Nodup ∧
  (s.openTx.map (fun t => t.2)).Nodup ∧
  (∀ t ∈ s.openTx, ∃ j ∈ s.jobs, j.id = t.2 ∧ j.status = "pending") ∧
  (∀ t ∈ s.log, ∀ j ∈ s.jobs, j.id = t.2 → j.status = "running") ∧
  (s.log.map (fun t => t.2)).Nodup

/-- The stronger invariant a state satisfies between complete claim rounds,
relative to the initial all-pending queue `s0`: consistency, no transaction
left open, ids and scheduled times untouched, every row pending or
running-and-logged, and the pending count decreased once per logged claim. -/
def RoundInv (s0 s : ClaimState) : Prop :=
  ClaimInv s ∧
  s.openTx = [] ∧
  s.jobs.map (fun j => (j.id, j.runAt)) =
    s0.jobs.map (fun j => (j.id, j.runAt)) ∧
  (∀ j ∈ s.jobs, j.status = "pending" ∨
    (j.status = "running" ∧ j.id ∈ s.log.map (fun t => t.2))) ∧
  s.log.length + s.jobs.countP (fun j => j.status == "pending") =
    s0.jobs.length

/-- `N`-fold replay of the same delivery (same payload, same clock). -/
def ingestIter (parse : List Nat → Option GhWebhookEnvelope)
    (e : GitHubWebhookReceived) (now : Nat) : Nat → DBState → DBState
  | 0, s => s
  | n + 1, s => ingestIter parse e now n (ingest parse e now s)

/-- One upsert against `github_issues` for a fixed project: either the
ingestor's webhook-event upsert or the worker's bulk-sync upsert, each
stamped with its arrival clock. -/
inductive IssueUpsert where
  | webhook (p : GhIssuePayload) (now : Nat)
  | bulk (it : BulkIssueItem) (now : Nat)
deriving Repr, DecidableEq

/-- The external entity id an upsert addresses. -/
def IssueUpsert.entityId : IssueUpsert → Int
  | IssueUpsert.webhook p _ => p.id
  | IssueUpsert.bulk it _ => it.id

/-- The wall-clock instant an upsert is applied at. -/
def IssueUpsert.time : IssueUpsert → Nat
  | IssueUpsert.webhook _ now => now
  | IssueUpsert.bulk _ now => now

/-- Apply one upsert to the issues table. -/
def applyIssueUpsert (pid : Nat) (rows : List IssueRow) : IssueUpsert → List IssueRow
  | IssueUpsert.webhook p now => upsertIssueWebhook rows pid p now
  | IssueUpsert.bulk it now => upsertIssueBulk rows pid it now

/-- Apply a sequence of upserts in order. -/
def applyIssueUpserts (pid : Nat) (rows : List IssueRow)
    (ops : List IssueUpsert) : List IssueRow :=
  ops.foldl (applyIssueUpsert pid) rows

/-- The number of rows holding the unique key (project, external issue id). -/
def issueKeyCount (rows : List IssueRow) (pid : Nat) (iid : Int) : Nat :=
  rows.countP (issueKey pid iid)

/-- The first row holding the key, as a lookup would return it. -/
def findIssue (rows : List IssueRow) (pid : Nat) (iid : Int) : Option IssueRow :=
  rows.find? (issueKey pid iid)

/-- The content columns an upsert writes carry exactly the values it supplied
(the column list differs between the webhook and the bulk variant, mirroring
the two `ON CONFLICT ... DO UPDATE SET` statements). -/
def suppliedFieldsMatch (op : IssueUpsert) (r : IssueRow) : Prop :=
  match op with
  | IssueUpsert.webhook p _ =>
      r.number = p.number ∧ r.state = p.state ∧ r.title = p.title ∧
      r.body = p.body ∧ r.authorLogin = p.userLogin ∧ r.url = p.htmlURL ∧
      r.createdAtGithub = p.createdAt ∧ r.updatedAtGithub = p.updatedAt ∧
      r.closedAtGithub = p.closedAt
  | IssueUpsert.bulk it _ =>
      r.number = it.number ∧ r.state = it.state ∧ r.title = it.title ∧
      r.body = it.body ∧ r.authorLogin = it.userLogin ∧ r.url = it.htmlURL ∧
      r.assignees = it.assigneesJson ∧ r.labels = it.labelsJson ∧
      r.commentsCount = it.commentsCount ∧ r.comments = it.commentsJson

/-- What effect 1 does to the `github_events` table, as a function of the
projects and events tables alone. -/
def eventsAfter (parse : List Nat → Option GhWebhookEnvelope)
    (e : GitHubWebhookReceived) (now : Nat) (projects : List ProjectRow)
    (events : List GithubEventRow) : List GithubEventRow :=
  let env := (parse e.payload).getD emptyEnvelope
  if e.deliveryID = "" then events
  else insertEventIgnore events
    { deliveryId := e.deliveryID, projectId := resolvedProject projects env e,
      repoFullName := resolvedRepo env e, event := e.event,
      action := nullIfEmpty (resolvedAction env e),
      payload := e.payload, receivedAt := now }

/-- What effect 2 does to the `github_issues` table. -/
def issuesAfter (parse : List Nat → Option GhWebhookEnvelope)
    (e : GitHubWebhookReceived) (now : Nat) (projects : List ProjectRow)
    (issues : List IssueRow) : List IssueRow :=
  let env := (parse e.payload).getD emptyEnvelope
  match resolvedProject projects env e, env.issue with
  | some pid, some issue =>
    if e.event = "issues" then upsertIssueWebhook issues pid issue now
    else issues
  | _, _ => issues

/-- What effect 2 does to the `github_pull_requests` table. -/
def prsAfter (parse : List Nat → Option GhWebhookEnvelope)
    (e : GitHubWebhookReceived) (now : Nat) (projects : List ProjectRow)
    (prs : List PullRequestRow) : List PullRequestRow :=
  let env := (parse e.payload).getD emptyEnvelope
  match resolvedProject projects env e, env.pullRequest with
  | some pid, some pr =>
    if e.event = "pull_request" ∨ e.event = "pull_request_review" then
      upsertPRWebhook prs pid pr now
    else prs
  | _, _ => prs

/-! ### Frame lemmas for the three ingest stages -/

theorem auditStage_projects (pidOpt repo act e now s) :
    (auditStage pidOpt repo act e now s).projects = s.projects := by
  unfold auditStage; split <;> rfl

theorem auditStage_githubIssues (pidOpt repo act e now s) :
    (auditStage pidOpt repo act e now s).githubIssues = s.githubIssues := by
  unfold auditStage; split <;> rfl

theorem auditStage_githubPullRequests (pidOpt repo act e now s) :
    (auditStage pidOpt repo act e now s).githubPullRequests = s.githubPullRequests := by
  unfold auditStage; split <;> rfl

theorem auditStage_syncJobs (pidOpt repo act e now s) :
    (auditStage pidOpt repo act e now s).syncJobs = s.syncJobs := by
  unfold auditStage; split <;> rfl

theorem auditStage_nextJobId (pidOpt repo act e now s) :
    (auditStage pidOpt repo act e now s).nextJobId = s.nextJobId := by
  unfold auditStage; split <;> rfl

theorem snapshotStage_projects (pidOpt env e now s) :
    (snapshotStage pidOpt env e now s).projects = s.projects := by
  unfold snapshotStage
  cases pidOpt <;> cases henv : env.pullRequest <;> cases hi : env.issue <;>
    simp only [] <;> split_ifs <;> rfl

theorem snapshotStage_githubEvents (pidOpt env e now s) :
    (snapshotStage pidOpt env e now s).githubEvents = s.githubEvents := by
  unfold snapshotStage
  cases pidOpt <;> cases henv : env.pullRequest <;> cases hi : env.issue <;>
    simp only [] <;> split_ifs <;> rfl

theorem snapshotStage_syncJobs (pidOpt env e now s) :
    (snapshotStage pidOpt env e now s).syncJobs = s.syncJobs := by
  unfold snapshotStage
  cases pidOpt <;> cases henv : env.pullRequest <;> cases hi : env.issue <;>
    simp only [] <;> split_ifs <;> rfl

theorem snapshotStage_nextJobId (pidOpt env e now s) :
    (snapshotStage pidOpt env e now s).nextJobId = s.nextJobId := by
  unfold snapshotStage
  cases pidOpt <;> cases henv : env.pullRequest <;> cases hi : env.issue <;>
    simp only [] <;> split_ifs <;> rfl

theorem snapshotStage_none (env e now s) :
    snapshotStage none env e now s = s := rfl

theorem enqueueStage_projects (pidOpt e now s) :
    (enqueueStage pidOpt e now s).projects = s.projects := by
  unfold enqueueStage; cases pidOpt <;> simp only [] <;> split <;> rfl

theorem enqueueStage_githubEvents (pidOpt e now s) :
    (enqueueStage pidOpt e now s).githubEvents = s.githubEvents := by
  unfold enqueueStage; cases pidOpt <;> simp only [] <;> split <;> rfl

theorem enqueueStage_githubIssues (pidOpt e now s) :
    (enqueueStage pidOpt e now s).githubIssues = s.githubIssues := by
  unfold enqueueStage; cases pidOpt <;> simp only [] <;> split <;> rfl

theorem enqueueStage_githubPullRequests (pidOpt e now s) :
    (enqueueStage pidOpt e now s).githubPullRequests = s.githubPullRequests := by
  unfold enqueueStage; cases pidOpt <;> simp only [] <;> split <;> rfl

theorem enqueueStage_none (e now s) : enqueueStage none e now s = s := rfl

theorem enqueueStage_some_pos (pid e now s)
    (h : e.event = "issues" ∨ e.event = "pull_request" ∨ e.event = "push") :
    enqueueStage (some pid) e now s =
      { s with syncJobs := s.syncJobs ++ followUpJobs pid s.nextJobId now,
               nextJobId := s.nextJobId + 2 } := by
  unfold enqueueStage; simp only [if_pos h]

theorem enqueueStage_some_neg (pid e now s)
    (h : ¬ (e.event = "issues" ∨ e.event = "pull_request" ∨ e.event = "push")) :
    enqueueStage (some pid) e now s = s := by
  unfold enqueueStage; simp only [if_neg h]

/-- Projection form of ingest: the syncJobs table after ingest. -/
theorem ingest_syncJobs (parse e now s) :
    (ingest parse e now s).syncJobs =
      (enqueueStage (resolvedProject s.projects ((parse e.payload).getD emptyEnvelope) e)
        e now
        (snapshotStage (resolvedProject s.projects ((parse e.payload).getD emptyEnvelope) e)
          ((parse e.payload).getD emptyEnvelope) e now
          (auditStage (resolvedProject s.projects ((parse e.payload).getD emptyEnvelope) e)
            (resolvedRepo ((parse e.payload).getD emptyEnvelope) e)
            (resolvedAction ((parse e.payload).getD emptyEnvelope) e)
            e now s))).syncJobs := rfl

/-- For a mapped project and a listed event type, ingest appends exactly the
two follow-up jobs. -/
theorem ingest_syncJobs_pos
    (parse : List Nat → Option GhWebhookEnvelope) (e : GitHubWebhookReceived)
    (now : Nat) (s : DBState) (pid : Nat)
    (hpid : resolvedProject s.projects ((parse e.payload).getD emptyEnvelope) e = some pid)
    (h : e.event = "issues" ∨ e.event = "pull_request" ∨ e.event = "push") :
    (ingest parse e now s).syncJobs =
      s.syncJobs ++ followUpJobs pid s.nextJobId now := by
  rw [ingest_syncJobs, hpid, enqueueStage_some_pos _ _ _ _ h]
  simp only [snapshotStage_syncJobs, auditStage_syncJobs,
    snapshotStage_nextJobId, auditStage_nextJobId]

/-- For a mapped project and any other event type, ingest leaves the job
queue untouched. -/
theorem ingest_syncJobs_neg
    (parse : List Nat → Option GhWebhookEnvelope) (e : GitHubWebhookReceived)
    (now : Nat) (s : DBState) (pid : Nat)
    (hpid : resolvedProject s.projects ((parse e.payload).getD emptyEnvelope) e = some pid)
    (h : ¬ (e.event = "issues" ∨ e.event = "pull_request" ∨ e.event = "push")) :
    (ingest parse e now s).syncJobs = s.syncJobs := by
  rw [ingest_syncJobs, hpid, enqueueStage_some_neg _ _ _ _ h]
  rw [snapshotStage_syncJobs, auditStage_syncJobs]

/-- C1 (amended): follow-up jobs are enqueued for a mapped project exactly when
the event type is `issues`, `pull_request` or `push`; any other event type —
in particular one matching no snapshot-upsert branch, such as `star` — leaves
the job queue untouched. -/
theorem c1_enqueue_only_for_listed_events
    (parse : List Nat → Option GhWebhookEnvelope) (e : GitHubWebhookReceived)
    (now : Nat) (s : DBState) (pid : Nat)
    (hpid : resolvedProject s.projects ((parse e.payload).getD emptyEnvelope) e = some pid) :
    ((e.event = "issues" ∨ e.event = "pull_request" ∨ e.event = "push") →
      (ingest parse e now s).syncJobs =
        s.syncJobs ++ followUpJobs pid s.nextJobId now) ∧
    (¬ (e.event = "issues" ∨ e.event = "pull_request" ∨ e.event = "push") →
      (ingest parse e now s).syncJobs = s.syncJobs) :=
  ⟨ingest_syncJobs_pos parse e now s pid hpid,
   ingest_syncJobs_neg parse e now s pid hpid⟩

/-- C1 counterexample: the repository `acme/widgets` maps to registered
project 1, yet ingesting a `star` event (an event type matching no
snapshot-upsert branch) enqueues no SyncJob at all — the claimed
"unconditional on event type" enqueue does not happen. -/
theorem c1_counterexample :
    lookupProject
      [{ id := 1, githubFullName := "acme/widgets", ownerUserId := 7 }]
      (resolvedRepo emptyEnvelope
        { deliveryID := "d-1", event := "star", action := "created",
          repoFullName := "acme/widgets", payload := [] }) = some 1 ∧
    (ingest (fun _ => none)
      { deliveryID := "d-1", event := "star", action := "created",
        repoFullName := "acme/widgets", payload := [] } 5
      { projects := [{ id := 1, githubFullName := "acme/widgets", ownerUserId := 7 }],
        githubEvents := [], githubIssues := [], githubPullRequests := [],
        syncJobs := [], nextJobId := 0 }).syncJobs = [] := by decide

/-- Witness for `c1_enqueue_only_for_listed_events` at a concrete `push`
event against a registered project. -/
theorem c1_amended_witness :
    (ingest (fun _ => none)
      { deliveryID := "d-2", event := "push", action := "",
        repoFullName := "acme/widgets", payload := [] } 5
      { projects := [{ id := 1, githubFullName := "acme/widgets", ownerUserId := 7 }],
        githubEvents := [], githubIssues := [], githubPullRequests := [],
        syncJobs := [], nextJobId := 0 }).syncJobs =
      [] ++ followUpJobs 1 0 5 :=
  (c1_enqueue_only_for_listed_events (fun _ => none)
    { deliveryID := "d-2", event := "push", action := "",
      repoFullName := "acme/widgets", payload := [] } 5
    { projects := [{ id := 1, githubFullName := "acme/widgets", ownerUserId := 7 }],
      githubEvents := [], githubIssues := [], githubPullRequests := [],
      syncJobs := [], nextJobId := 0 } 1 (by decide)).1 (by decide)

/-- Unfolding of `ingest` into its three staged effects. -/
theorem ingest_def (parse e now s) :
    ingest parse e now s =
      enqueueStage (resolvedProject s.projects ((parse e.payload).getD emptyEnvelope) e)
        e now
        (snapshotStage (resolvedProject s.projects ((parse e.payload).getD emptyEnvelope) e)
          ((parse e.payload).getD emptyEnvelope) e now
          (auditStage (resolvedProject s.projects ((parse e.payload).getD emptyEnvelope) e)
            (resolvedRepo ((parse e.payload).getD emptyEnvelope) e)
            (resolvedAction ((parse e.payload).getD emptyEnvelope) e)
            e now s)) := rfl

/-- C10: an event whose repository maps to no registered project (or whose
resolved repository name is empty) leaves issues, pull requests and the job
queue untouched; the only write is the audit row, carrying a null project
reference, and only when the delivery identifier is non-empty. -/
theorem c10_unmapped_event_audit_only
    (parse : List Nat → Option GhWebhookEnvelope) (e : GitHubWebhookReceived)
    (now : Nat) (s : DBState)
    (hpid : resolvedProject s.projects ((parse e.payload).getD emptyEnvelope) e = none) :
    (ingest parse e now s).githubIssues = s.githubIssues ∧
    (ingest parse e now s).githubPullRequests = s.githubPullRequests ∧
    (ingest parse e now s).syncJobs = s.syncJobs ∧
    (ingest parse e now s).projects = s.projects ∧
    (e.deliveryID = "" → (ingest parse e now s).githubEvents = s.githubEvents) ∧
    (e.deliveryID ≠ "" → (ingest parse e now s).githubEvents =
      insertEventIgnore s.githubEvents
        { deliveryId := e.deliveryID, projectId := none,
          repoFullName := resolvedRepo ((parse e.payload).getD emptyEnvelope) e,
          event := e.event,
          action := nullIfEmpty (resolvedAction ((parse e.payload).getD emptyEnvelope) e),
          payload := e.payload, receivedAt := now }) := by
  rw [ingest_def, hpid, snapshotStage_none, enqueueStage_none]
  refine ⟨auditStage_githubIssues _ _ _ _ _ _,
    auditStage_githubPullRequests _ _ _ _ _ _,
    auditStage_syncJobs _ _ _ _ _ _,
    auditStage_projects _ _ _ _ _ _, ?_, ?_⟩
  · intro h; unfold auditStage; rw [if_pos h]
  · intro h; unfold auditStage; rw [if_neg h]

/-- Witness for `c10_unmapped_event_audit_only`: an `issues` event for a
repository with no registered project. -/
theorem c10_witness :
    (ingest (fun _ => none)
      { deliveryID := "d-9", event := "issues", action := "opened",
        repoFullName := "ghost/none", payload := [] } 3
      { projects := [{ id := 1, githubFullName := "acme/widgets", ownerUserId := 7 }],
        githubEvents := [], githubIssues := [], githubPullRequests := [],
        syncJobs := [], nextJobId := 0 }).syncJobs = [] :=
  (c10_unmapped_event_audit_only (fun _ => none)
    { deliveryID := "d-9", event := "issues", action := "opened",
      repoFullName := "ghost/none", payload := [] } 3
    { projects := [{ id := 1, githubFullName := "acme/widgets", ownerUserId := 7 }],
      githubEvents := [], githubIssues := [], githubPullRequests := [],
      syncJobs := [], nextJobId := 0 } (by decide)).2.2.1

/-- Signature verification succeeds exactly when the header has the
`sha256=` shape and its lowercased digest equals the computed one. -/
theorem verifyGitHubSignature_eq_true_iff (mac secret body header) :
    verifyGitHubSignature mac secret body header = true ↔
      goStartsWith header "sha256=" = true ∧
      goToLower (goDropHead header 7) = hexEncodeLower (mac secret body) := by
  unfold verifyGitHubSignature
  by_cases h : goStartsWith header "sha256=" = true
  · simp [h]
  · simp [h]

/-- C9 counterexample: an `OPTIONS` preflight request is answered 200 even
though the configured webhook secret is empty — not 503 as the claim requires
of every request. -/
theorem c9_counterexample :
    (receive (fun _ _ => []) (fun _ => none) "" false false false
      { method := "OPTIONS", body := [], deliveryHeader := "",
        eventHeader := "", sigHeader := "" } 0
      { projects := [], githubEvents := [], githubIssues := [],
        githubPullRequests := [], syncJobs := [], nextJobId := 0 }).status ≠ 503 ∧
    (receive (fun _ _ => []) (fun _ => none) "" false false false
      { method := "OPTIONS", body := [], deliveryHeader := "",
        eventHeader := "", sigHeader := "" } 0
      { projects := [], githubEvents := [], githubIssues := [],
        githubPullRequests := [], syncJobs := [], nextJobId := 0 }).status = 200 := by
  decide

/-- C9 (amended): for every non-`OPTIONS` request (a CORS preflight is
answered 200 before any check), the status is 503 when the secret is empty,
401 when signature verification fails, and 200 otherwise — independent of the
bus being present, the publish outcome, the ingestor being present, and the
parse result; moreover a failed envelope parse ingests with empty routing
fields rather than rejecting the delivery. -/
theorem c9_status_codes (mac : String → List Nat → List Nat)
    (parse : List Nat → Option GhWebhookEnvelope) (secret : String)
    (busPresent publishOk ingPresent : Bool) (req : WebhookRequest)
    (now : Nat) (s : DBState)
    (hm : req.method ≠ "OPTIONS") :
    ((receive mac parse secret busPresent publishOk ingPresent req now s).status =
      if secret = "" then 503
      else if verifyGitHubSignature mac secret req.body req.sigHeader then 200
      else 401) ∧
    (parse req.body = none → secret ≠ "" →
      verifyGitHubSignature mac secret req.body req.sigHeader = true →
      busPresent = false → ingPresent = true →
      (receive mac parse secret busPresent publishOk ingPresent req now s).db =
        ingest parse
          { deliveryID := goTrimSpace req.deliveryHeader,
            event := goTrimSpace req.eventHeader, action := "",
            repoFullName := "", payload := req.body } now s) := by
  constructor
  · unfold receive
    rw [if_neg hm]
    by_cases hs : secret = ""
    · simp [hs]
    · simp only [if_neg hs, hs, if_false]
      by_cases hv : verifyGitHubSignature mac secret req.body req.sigHeader = true
      · simp only [hv, if_true]
        by_cases hb : busPresent <;> by_cases hi : ingPresent <;> simp [hb, hi]
      · simp [hv]
  · intro hparse hs hv hb hi
    unfold receive
    rw [if_neg hm, if_neg hs, hparse, hb, hi]
    simp [hv]

/-- Witness for `c9_status_codes`: a POST with an empty secret is answered
503. -/
theorem c9_amended_witness :
    (receive (fun _ _ => []) (fun _ => none) "" false false false
      { method := "POST", body := [], deliveryHeader := "",
        eventHeader := "", sigHeader := "" } 0
      { projects := [], githubEvents := [], githubIssues := [],
        githubPullRequests := [], syncJobs := [], nextJobId := 0 }).status = 503 := by
  have h := (c9_status_codes (fun _ _ => []) (fun _ => none) "" false false false
    { method := "POST", body := [], deliveryHeader := "",
      eventHeader := "", sigHeader := "" } 0
    { projects := [], githubEvents := [], githubIssues := [],
      githubPullRequests := [], syncJobs := [], nextJobId := 0 } (by decide)).1
  simpa using h

/-- C5: a request whose body differs from the bytes the signature header was
computed over — so that its digest differs, which is what a byte flip under
HMAC-SHA256 produces — is answered 401, and the database is left exactly as it
was: no audit row, no snapshot mutation, no job creation. -/
theorem c5_tampered_body_rejected (mac : String → List Nat → List Nat)
    (parse : List Nat → Option GhWebhookEnvelope) (secret : String)
    (busPresent publishOk ingPresent : Bool) (req : WebhookRequest)
    (now : Nat) (s : DBState) (orig : List Nat)
    (hm : req.method ≠ "OPTIONS") (hs : secret ≠ "")
    (hsig : verifyGitHubSignature mac secret orig req.sigHeader = true)
    (hdiff : hexEncodeLower (mac secret req.body) ≠ hexEncodeLower (mac secret orig)) :
    (receive mac parse secret busPresent publishOk ingPresent req now s).status = 401 ∧
    (receive mac parse secret busPresent publishOk ingPresent req now s).db = s := by
  obtain ⟨hpre, hgot⟩ := (verifyGitHubSignature_eq_true_iff mac secret orig req.sigHeader).1 hsig
  have hv : ¬ verifyGitHubSignature mac secret req.body req.sigHeader = true := by
    intro hc
    obtain ⟨_, hgot'⟩ := (verifyGitHubSignature_eq_true_iff mac secret req.body req.sigHeader).1 hc
    exact hdiff (hgot' ▸ hgot)
  unfold receive
  rw [if_neg hm, if_neg hs, if_pos hv]
  exact ⟨rfl, rfl⟩

/-- Witness for `c5_tampered_body_rejected`: a toy MAC (byte sum), a body
signed as `[1, 2]`, delivered with the flipped body `[1, 3]`. -/
theorem c5_witness :
    (receive (fun _ b => [b.foldl (fun a x => a + x) 0 % 256]) (fun _ => none)
      "k" false false true
      { method := "POST", body := [1, 3], deliveryHeader := "d-1",
        eventHeader := "issues", sigHeader := "sha256=03" } 9
      { projects := [], githubEvents := [], githubIssues := [],
        githubPullRequests := [], syncJobs := [], nextJobId := 0 }).status = 401 ∧
    (receive (fun _ b => [b.foldl (fun a x => a + x) 0 % 256]) (fun _ => none)
      "k" false false true
      { method := "POST", body := [1, 3], deliveryHeader := "d-1",
        eventHeader := "issues", sigHeader := "sha256=03" } 9
      { projects := [], githubEvents := [], githubIssues := [],
        githubPullRequests := [], syncJobs := [], nextJobId := 0 }).db =
      { projects := [], githubEvents := [], githubIssues := [],
        githubPullRequests := [], syncJobs := [], nextJobId := 0 } :=
  c5_tampered_body_rejected (fun _ b => [b.foldl (fun a x => a + x) 0 % 256])
    (fun _ => none) "k" false false true
    { method := "POST", body := [1, 3], deliveryHeader := "d-1",
      eventHeader := "issues", sigHeader := "sha256=03" } 9
    { projects := [], githubEvents := [], githubIssues := [],
      githubPullRequests := [], syncJobs := [], nextJobId := 0 } [1, 2]
    (by decide) (by decide) (by decide) (by decide)

/-- If every page before `p` is full and page `p` errors (within the fuel
window), the loop fetches exactly pages `page..p` in order and aborts with
that error. -/
theorem syncPagesGo_error (fetch : Nat → Except String (List BulkIssueItem))
    (e : String) :
    ∀ (fuel page p : Nat), page ≤ p → p < page + fuel →
      fetch p = Except.error e →
      (∀ q, page ≤ q → q < p → ∃ its, fetch q = Except.ok its ∧ its ≠ []) →
      syncPagesGo fetch fuel page =
        (List.range' page (p - page + 1), Except.error e) := by
  intro fuel
  induction fuel with
  | zero => intro page p hlow hhigh _ _; omega
  | succ n ih =>
    intro page p hlow hhigh herr hok
    by_cases hpage : page = p
    · subst hpage
      unfold syncPagesGo
      rw [herr]
      simp [List.range']
    · have hlt : page < p := lt_of_le_of_ne hlow hpage
      obtain ⟨its, hq, hne⟩ := hok page le_rfl hlt
      unfold syncPagesGo
      rw [hq]
      cases its with
      | nil => exact absurd rfl hne
      | cons a l =>
        simp only []
        rw [ih (page + 1) p (by omega) (by omega) herr
          (fun q h1 h2 => hok q (by omega) h2)]
        have harith : p - page + 1 = (p - (page + 1) + 1) + 1 := by omega
        simp [harith, List.range'_succ]

/-- If every page before `p` is full and page `p` is empty (within the fuel
window), the loop fetches exactly pages `page..p` in order and ends
successfully. -/
theorem syncPagesGo_empty (fetch : Nat → Except String (List BulkIssueItem)) :
    ∀ (fuel page p : Nat), page ≤ p → p < page + fuel →
      fetch p = Except.ok [] →
      (∀ q, page ≤ q → q < p → ∃ its, fetch q = Except.ok its ∧ its ≠ []) →
      syncPagesGo fetch fuel page =
        (List.range' page (p - page + 1), Except.ok ()) := by
  intro fuel
  induction fuel with
  | zero => intro page p hlow hhigh _ _; omega
  | succ n ih =>
    intro page p hlow hhigh hemp hok
    by_cases hpage : page = p
    · subst hpage
      unfold syncPagesGo
      rw [hemp]
      simp [List.range']
    · have hlt : page < p := lt_of_le_of_ne hlow hpage
      obtain ⟨its, hq, hne⟩ := hok page le_rfl hlt
      unfold syncPagesGo
      rw [hq]
      cases its with
      | nil => exact absurd rfl hne
      | cons a l =>
        simp only []
        rw [ih (page + 1) p (by omega) (by omega) hemp
          (fun q h1 h2 => hok q (by omega) h2)]
        have harith : p - page + 1 = (p - (page + 1) + 1) + 1 := by omega
        simp [harith, List.range'_succ]

/-- The loop never fetches more pages than its fuel, and every fetched page
number lies in the fuel window. -/
theorem syncPagesGo_bounds (fetch : Nat → Except String (List BulkIssueItem)) :
    ∀ (fuel page : Nat),
      (syncPagesGo fetch fuel page).1.length ≤ fuel ∧
      ∀ q ∈ (syncPagesGo fetch fuel page).1, page ≤ q ∧ q < page + fuel := by
  intro fuel
  induction fuel with
  | zero => intro page; simp [syncPagesGo]
  | succ n ih =>
    intro page
    unfold syncPagesGo
    cases hf : fetch page with
    | error e => simp
    | ok its =>
      cases its with
      | nil => simp
      | cons a l =>
        simp only [List.length_cons, List.mem_cons]
        constructor
        · have := (ih (page + 1)).1
          omega
        · intro q hq
          rcases hq with hq | hq
          · omega
          · have := (ih (page + 1)).2 q hq
            omega

/-- C7: against an API returning three full pages then an empty page, a
`sync_issues` pass fetches exactly pages 1, 2, 3, 4 in that order and ends
successfully — no up-front total count appears anywhere in the loop — and
`processOne`'s terminal update then marks the job `completed`; moreover, for
every API behaviour whatsoever, the loop fetches at most 50 pages, all with
numbers between 1 and 50. -/
theorem c7_pagination_terminates (fetch : Nat → Except String (List BulkIssueItem))
    (l1 l2 l3 : List BulkIssueItem)
    (h1 : fetch 1 = Except.ok l1) (hn1 : l1 ≠ [])
    (h2 : fetch 2 = Except.ok l2) (hn2 : l2 ≠ [])
    (h3 : fetch 3 = Except.ok l3) (hn3 : l3 ≠ [])
    (h4 : fetch 4 = Except.ok []) :
    syncIssuesLoop fetch = ([1, 2, 3, 4], Except.ok ()) ∧
    (∀ (j : SyncJobRow) (t : Nat),
      finishJob [j] j.id (syncIssuesLoop fetch).2 t =
        [{ j with status := "completed", attempts := j.attempts + 1,
                  lastError := none, updatedAt := t }]) ∧
    (∀ g : Nat → Except String (List BulkIssueItem),
      (syncIssuesLoop g).1.length ≤ 50 ∧
      ∀ q ∈ (syncIssuesLoop g).1, 1 ≤ q ∧ q ≤ 50) := by
  have hloop : syncIssuesLoop fetch = ([1, 2, 3, 4], Except.ok ()) := by
    have h := syncPagesGo_empty fetch 50 1 4 (by omega) (by omega) h4 ?_
    · unfold syncIssuesLoop
      rw [h]
      norm_num [List.range']
    · intro q hq1 hq2
      interval_cases q
      · exact ⟨l1, h1, hn1⟩
      · exact ⟨l2, h2, hn2⟩
      · exact ⟨l3, h3, hn3⟩
  refine ⟨hloop, ?_, ?_⟩
  · intro j t
    rw [hloop]
    unfold finishJob sqlNullIfEmpty
    simp
  · intro g
    have h := syncPagesGo_bounds g 50 1
    exact ⟨h.1, fun q hq => by have := h.2 q hq; omega⟩

/-- Witness for `c7_pagination_terminates` with a concrete one-item page
oracle. -/
theorem c7_witness :
    (syncIssuesLoop (fun p => if p ≤ 3 then
        Except.ok [{ id := 1, number := 1, state := "open", title := "t",
                     body := "b", htmlURL := "u", userLogin := "a",
                     assigneesJson := "[]", labelsJson := "[]",
                     commentsCount := 0, commentsJson := "[]",
                     isPullRequest := false }]
      else Except.ok [])).1 = [1, 2, 3, 4] :=
  congrArg Prod.fst
    ((c7_pagination_terminates (fun p => if p ≤ 3 then
        Except.ok [{ id := 1, number := 1, state := "open", title := "t",
                     body := "b", htmlURL := "u", userLogin := "a",
                     assigneesJson := "[]", labelsJson := "[]",
                     commentsCount := 0, commentsJson := "[]",
                     isPullRequest := false }]
      else Except.ok [])
      [{ id := 1, number := 1, state := "open", title := "t",
         body := "b", htmlURL := "u", userLogin := "a",
         assigneesJson := "[]", labelsJson := "[]",
         commentsCount := 0, commentsJson := "[]",
         isPullRequest := false }]
      [{ id := 1, number := 1, state := "open", title := "t",
         body := "b", htmlURL := "u", userLogin := "a",
         assigneesJson := "[]", labelsJson := "[]",
         commentsCount := 0, commentsJson := "[]",
         isPullRequest := false }]
      [{ id := 1, number := 1, state := "open", title := "t",
         body := "b", htmlURL := "u", userLogin := "a",
         assigneesJson := "[]", labelsJson := "[]",
         commentsCount := 0, commentsJson := "[]",
         isPullRequest := false }]
      rfl (by simp) rfl (by simp) rfl (by simp) rfl).1)

/-- C6: a page-fetch error aborts the remaining pages (the loop's trace stops
at the erroring page) and the terminal update then marks exactly the claimed
job `failed` with the error text and an incremented attempt count; a clean
pass marks it `completed` with the error cleared and the attempt count
incremented; in both cases the jobs table keeps its length (no new job is
enqueued) and every other row is untouched. -/
theorem c6_terminal_update (fetch : Nat → Except String (List BulkIssueItem))
    (jobs : List SyncJobRow) (jid : Nat) (t : Nat) :
    (∀ p e, 1 ≤ p → p ≤ 50 → fetch p = Except.error e →
      (∀ q, 1 ≤ q → q < p → ∃ its, fetch q = Except.ok its ∧ its ≠ []) →
      syncIssuesLoop fetch = (List.range' 1 p, Except.error e)) ∧
    (∀ r, (finishJob jobs jid r t).length = jobs.length) ∧
    (∀ r, ∀ j ∈ jobs, j.id ≠ jid → j ∈ finishJob jobs jid r t) ∧
    (∀ e, e ≠ "" → ∀ j ∈ jobs, j.id = jid →
      { j with status := "failed", attempts := j.attempts + 1,
               lastError := some e, updatedAt := t } ∈
        finishJob jobs jid (Except.error e) t) ∧
    (∀ j ∈ jobs, j.id = jid →
      { j with status := "completed", attempts := j.attempts + 1,
               lastError := none, updatedAt := t } ∈
        finishJob jobs jid (Except.ok ()) t) := by
  refine ⟨?_, ?_, ?_, ?_, ?_⟩
  · intro p e hp1 hp50 herr hok
    have h := syncPagesGo_error fetch e 50 1 p hp1 (by omega) herr hok
    have harith : p - 1 + 1 = p := by omega
    unfold syncIssuesLoop
    rw [h, harith]
  · intro r
    unfold finishJob
    exact List.length_map _ _
  · intro r j hj hne
    unfold finishJob
    refine List.mem_map.2 ⟨j, hj, ?_⟩
    have : (j.id == jid) = false := by simpa using hne
    simp [this]
  · intro e he j hj hid
    unfold finishJob
    refine List.mem_map.2 ⟨j, hj, ?_⟩
    have : (j.id == jid) = true := by simpa using hid
    simp [this, sqlNullIfEmpty, he]
  · intro j hj hid
    unfold finishJob
    refine List.mem_map.2 ⟨j, hj, ?_⟩
    have : (j.id == jid) = true := by simpa using hid
    simp [this, sqlNullIfEmpty]

/-- Witness for `c6_terminal_update`: a one-job table and an oracle erroring
on page 1. -/
theorem c6_witness :
    { id := 5, projectId := 1, jobType := "sync_issues", status := "failed",
      runAt := 0, attempts := 4, lastError := some "boom", lockedAt := some 2,
      lockedBy := some 9, createdAt := 0, updatedAt := 7 } ∈
      finishJob
        [{ id := 5, projectId := 1, jobType := "sync_issues",
           status := "running", runAt := 0, attempts := 3, lastError := none,
           lockedAt := some 2, lockedBy := some 9, createdAt := 0,
           updatedAt := 2 }] 5 (Except.error "boom") 7 :=
  (c6_terminal_update (fun _ => Except.error "boom")
    [{ id := 5, projectId := 1, jobType := "sync_issues",
       status := "running", runAt := 0, attempts := 3, lastError := none,
       lockedAt := some 2, lockedBy := some 9, createdAt := 0,
       updatedAt := 2 }] 5 7).2.2.2.1 "boom" (by decide)
    { id := 5, projectId := 1, jobType := "sync_issues",
      status := "running", runAt := 0, attempts := 3, lastError := none,
      lockedAt := some 2, lockedBy := some 9, createdAt := 0,
      updatedAt := 2 } (by simp) rfl

/-! ### Table-level formulas for ingest -/

theorem ingest_projects (parse e now s) :
    (ingest parse e now s).projects = s.projects := by
  rw [ingest_def, enqueueStage_projects, snapshotStage_projects,
    auditStage_projects]

theorem ingest_nextJobId_const (parse e now s)
    (h : resolvedProject s.projects ((parse e.payload).getD emptyEnvelope) e = none) :
    (ingest parse e now s).nextJobId = s.nextJobId := by
  rw [ingest_def, h, enqueueStage_none, snapshotStage_none,
    auditStage_nextJobId]

theorem ingest_githubEvents (parse e now s) :
    (ingest parse e now s).githubEvents =
      eventsAfter parse e now s.projects s.githubEvents := by
  rw [ingest_def, enqueueStage_githubEvents, snapshotStage_githubEvents]
  unfold auditStage eventsAfter
  split <;> rfl

theorem ingest_githubIssues (parse e now s) :
    (ingest parse e now s).githubIssues =
      issuesAfter parse e now s.projects s.githubIssues := by
  rw [ingest_def, enqueueStage_githubIssues]
  unfold snapshotStage issuesAfter
  cases hp : resolvedProject s.projects ((parse e.payload).getD emptyEnvelope) e with
  | none =>
    cases hi : ((parse e.payload).getD emptyEnvelope).issue <;>
      simp_all [auditStage_githubIssues]
  | some pid =>
    cases hpr : ((parse e.payload).getD emptyEnvelope).pullRequest <;>
      cases hi : ((parse e.payload).getD emptyEnvelope).issue <;>
      split_ifs <;>
      simp_all [auditStage_githubIssues]

theorem ingest_githubPullRequests (parse e now s) :
    (ingest parse e now s).githubPullRequests =
      prsAfter parse e now s.projects s.githubPullRequests := by
  rw [ingest_def, enqueueStage_githubPullRequests]
  unfold snapshotStage prsAfter
  cases hp : resolvedProject s.projects ((parse e.payload).getD emptyEnvelope) e with
  | none =>
    cases hpr : ((parse e.payload).getD emptyEnvelope).pullRequest <;>
      simp_all [auditStage_githubPullRequests]
  | some pid =>
    cases hpr : ((parse e.payload).getD emptyEnvelope).pullRequest <;>
      cases hi : ((parse e.payload).getD emptyEnvelope).issue <;>
      split_ifs <;>
      simp_all [auditStage_githubIssues, auditStage_githubPullRequests]

/-! ### Generic facts about the SQL upsert shape -/

theorem list_map_id_of_mem {α : Type} (l : List α) (f : α → α)
    (h : ∀ a ∈ l, f a = a) : l.map f = l := by
  induction l with
  | nil => rfl
  | cons a t ih =>
    rw [List.map_cons, h a (List.mem_cons_self a t),
      ih (fun x hx => h x (List.mem_cons_of_mem a hx))]

theorem map_upd_any {α : Type} (key : α → Bool) (upd : α → α)
    (hk : ∀ r, key (upd r) = key r) (l : List α) :
    (l.map (fun r => if key r then upd r else r)).any key = l.any key := by
  induction l with
  | nil => rfl
  | cons a t ih =>
    by_cases ha : key a = true
    · simp [List.any_cons, ha, hk, ih]
    · have ha' : key a = false := by
        cases hh : key a
        · rfl
        · exact absurd hh ha
      simp [List.any_cons, ha', ih]

theorem sqlUpsert_any_true {α : Type} (key : α → Bool) (upd : α → α) (ins : α)
    (rows : List α) (h : rows.any key = true) :
    sqlUpsert key upd ins rows =
      rows.map (fun r => if key r then upd r else r) := by
  unfold sqlUpsert; rw [if_pos h]

theorem sqlUpsert_any_false {α : Type} (key : α → Bool) (upd : α → α) (ins : α)
    (rows : List α) (h : rows.any key = false) :
    sqlUpsert key upd ins rows = rows ++ [ins] := by
  unfold sqlUpsert
  rw [if_neg]
  rw [h]
  exact Bool.false_ne_true

/-- Re-applying an upsert with identical arguments is a no-op after the first
application. -/
theorem sqlUpsert_idem {α : Type} (key : α → Bool) (upd : α → α) (ins : α)
    (hins : key ins = true) (hk : ∀ r, key (upd r) = key r)
    (hupd : ∀ r, upd (upd r) = upd r) (hinsupd : upd ins = ins)
    (rows : List α) :
    sqlUpsert key upd ins (sqlUpsert key upd ins rows) =
      sqlUpsert key upd ins rows := by
  have hgg : ∀ a, (fun r => if key r then upd r else r)
      ((fun r => if key r then upd r else r) a) =
      (fun r => if key r then upd r else r) a := by
    intro a
    by_cases ha : key a = true
    · simp only [ha, if_true, hk a, hupd a]
    · simp only [ha, if_false]
      simp [ha]
  cases hany : rows.any key with
  | true =>
    rw [sqlUpsert_any_true key upd ins rows hany,
      sqlUpsert_any_true key upd ins _ (by rw [map_upd_any key upd hk]; exact hany),
      List.map_map]
    have : ((fun r => if key r then upd r else r) ∘
        (fun r => if key r then upd r else r)) =
        (fun r => if key r then upd r else r) := funext hgg
    rw [this]
  | false =>
    rw [sqlUpsert_any_false key upd ins rows hany]
    have hmem : ∀ a ∈ rows, key a = false := by
      intro a ha
      have := List.any_eq_false.mp hany a ha
      cases hh : key a
      · rfl
      · exact absurd hh this
    have hany2 : (rows ++ [ins]).any key = true := by
      rw [List.any_append]
      simp [hins]
    rw [sqlUpsert_any_true key upd ins _ hany2, List.map_append]
    rw [list_map_id_of_mem rows _ (fun a ha => by simp [hmem a ha])]
    simp [hins, hinsupd]

theorem upsertIssueWebhook_idem (rows : List IssueRow) (pid : Nat)
    (p : GhIssuePayload) (now : Nat) :
    upsertIssueWebhook (upsertIssueWebhook rows pid p now) pid p now =
      upsertIssueWebhook rows pid p now := by
  unfold upsertIssueWebhook
  exact sqlUpsert_idem (issueKey pid p.id) (webhookIssueUpdate p now)
    (webhookIssueInsert pid p now) (by simp [issueKey, webhookIssueInsert])
    (fun r => rfl) (fun r => rfl) rfl rows

theorem upsertPRWebhook_idem (rows : List PullRequestRow) (pid : Nat)
    (p : GhPullRequestPayload) (now : Nat) :
    upsertPRWebhook (upsertPRWebhook rows pid p now) pid p now =
      upsertPRWebhook rows pid p now := by
  unfold upsertPRWebhook
  exact sqlUpsert_idem (prKey pid p.id) (webhookPRUpdate p now)
    (webhookPRInsert pid p now) (by simp [prKey, webhookPRInsert])
    (fun r => rfl) (fun r => rfl) rfl rows

theorem insertEventIgnore_idem (rows : List GithubEventRow) (r : GithubEventRow) :
    insertEventIgnore (insertEventIgnore rows r) r = insertEventIgnore rows r := by
  unfold insertEventIgnore
  cases h : rows.any (fun x => x.deliveryId == r.deliveryId) with
  | true => simp [h]
  | false =>
    simp only [h, Bool.false_eq_true, if_false, if_true]
    rw [if_pos]
    rw [List.any_append]
    simp

/-! ### Idempotence of the per-table effects and of replayed ingestion -/

theorem eventsAfter_idem (parse e now P E) :
    eventsAfter parse e now P (eventsAfter parse e now P E) =
      eventsAfter parse e now P E := by
  unfold eventsAfter
  by_cases hd : e.deliveryID = ""
  · simp [hd]
  · simp only [if_neg hd]
    exact insertEventIgnore_idem _ _

theorem issuesAfter_idem (parse e now P I) :
    issuesAfter parse e now P (issuesAfter parse e now P I) =
      issuesAfter parse e now P I := by
  unfold issuesAfter
  cases hp : resolvedProject P ((parse e.payload).getD emptyEnvelope) e with
  | none => cases hi : ((parse e.payload).getD emptyEnvelope).issue <;> simp_all
  | some pid =>
    cases hi : ((parse e.payload).getD emptyEnvelope).issue with
    | none => simp_all
    | some issue =>
      by_cases hev : e.event = "issues"
      · simp_all [upsertIssueWebhook_idem]
      · simp_all

theorem prsAfter_idem (parse e now P R) :
    prsAfter parse e now P (prsAfter parse e now P R) =
      prsAfter parse e now P R := by
  unfold prsAfter
  cases hp : resolvedProject P ((parse e.payload).getD emptyEnvelope) e with
  | none =>
    cases hpr : ((parse e.payload).getD emptyEnvelope).pullRequest <;> simp_all
  | some pid =>
    cases hpr : ((parse e.payload).getD emptyEnvelope).pullRequest with
    | none => simp_all
    | some pr =>
      by_cases hev : e.event = "pull_request" ∨ e.event = "pull_request_review"
      · simp_all [upsertPRWebhook_idem]
      · simp_all

/-- A second ingest of the same event at the same clock leaves the audit table
and both snapshot tables exactly as the first left them. -/
theorem ingest_ingest_tables (parse e now s) :
    (ingest parse e now (ingest parse e now s)).projects =
      (ingest parse e now s).projects ∧
    (ingest parse e now (ingest parse e now s)).githubEvents =
      (ingest parse e now s).githubEvents ∧
    (ingest parse e now (ingest parse e now s)).githubIssues =
      (ingest parse e now s).githubIssues ∧
    (ingest parse e now (ingest parse e now s)).githubPullRequests =
      (ingest parse e now s).githubPullRequests := by
  refine ⟨ingest_projects _ _ _ _, ?_, ?_, ?_⟩
  · rw [ingest_githubEvents parse e now (ingest parse e now s),
      ingest_projects, ingest_githubEvents, eventsAfter_idem]
  · rw [ingest_githubIssues parse e now (ingest parse e now s),
      ingest_projects, ingest_githubIssues, issuesAfter_idem]
  · rw [ingest_githubPullRequests parse e now (ingest parse e now s),
      ingest_projects, ingest_githubPullRequests, prsAfter_idem]

/-- Replaying any number of times after the first ingest moves none of the
audit or snapshot tables. -/
theorem ingestIter_tables (parse e now) :
    ∀ (n : Nat) (s : DBState),
      (ingestIter parse e now n (ingest parse e now s)).projects =
        (ingest parse e now s).projects ∧
      (ingestIter parse e now n (ingest parse e now s)).githubEvents =
        (ingest parse e now s).githubEvents ∧
      (ingestIter parse e now n (ingest parse e now s)).githubIssues =
        (ingest parse e now s).githubIssues ∧
      (ingestIter parse e now n (ingest parse e now s)).githubPullRequests =
        (ingest parse e now s).githubPullRequests := by
  intro n
  induction n with
  | zero => intro s; exact ⟨rfl, rfl, rfl, rfl⟩
  | succ m ih =>
    intro s
    have h2 := ingest_ingest_tables parse e now s
    have h1 := ih (ingest parse e now s)
    exact ⟨h1.1.trans h2.1, h1.2.1.trans h2.2.1,
      h1.2.2.1.trans h2.2.2.1, h1.2.2.2.trans h2.2.2.2⟩

/-- A fresh delivery id's audit row count becomes exactly 1 on first ingest. -/
theorem countDelivery_first (parse e now s)
    (hd : e.deliveryID ≠ "")
    (h0 : countDelivery s e.deliveryID = 0) :
    countDelivery (ingest parse e now s) e.deliveryID = 1 := by
  unfold countDelivery at h0 ⊢
  rw [ingest_githubEvents]
  unfold eventsAfter
  rw [if_neg hd]
  unfold insertEventIgnore
  have hall : ∀ a ∈ s.githubEvents, ¬ (a.deliveryId == e.deliveryID) = true :=
    List.countP_eq_zero.mp h0
  rw [if_neg]
  · rw [List.countP_append, h0]
    simp
  · intro hc
    obtain ⟨x, hx, hxe⟩ := List.any_eq_true.mp hc
    exact hall x hx hxe

/-- C3: replaying the same delivery (non-empty delivery id, same payload,
same clock) N ≥ 1 times produces exactly one audit row for that delivery id,
and both snapshot tables end exactly as after a single ingestion. -/
theorem c3_replay_idempotent (parse : List Nat → Option GhWebhookEnvelope)
    (e : GitHubWebhookReceived) (now : Nat) (s : DBState) (N : Nat)
    (hN : 1 ≤ N) (hd : e.deliveryID ≠ "")
    (h0 : countDelivery s e.deliveryID = 0) :
    countDelivery (ingestIter parse e now N s) e.deliveryID = 1 ∧
    (ingestIter parse e now N s).githubIssues =
      (ingest parse e now s).githubIssues ∧
    (ingestIter parse e now N s).githubPullRequests =
      (ingest parse e now s).githubPullRequests := by
  cases N with
  | zero => omega
  | succ m =>
    have hiter := ingestIter_tables parse e now m s
    have h1 := countDelivery_first parse e now s hd h0
    have hstep : ingestIter parse e now (m + 1) s =
        ingestIter parse e now m (ingest parse e now s) := rfl
    rw [hstep]
    refine ⟨?_, hiter.2.2.1, hiter.2.2.2⟩
    unfold countDelivery at h1 ⊢
    rw [hiter.2.1]
    exact h1

/-- Witness for `c3_replay_idempotent`: the `issues opened` scenario replayed
three times. -/
theorem c3_witness :
    countDelivery
      (ingestIter
        (fun _ => some
          { action := "opened", repository := some "acme/widgets",
            issue := some
              { id := 70, number := 7, state := "open", title := "t",
                body := "b", htmlURL := "u", userLogin := "alice",
                createdAt := some 1, updatedAt := some 1, closedAt := none },
            pullRequest := none })
        { deliveryID := "d-1", event := "issues", action := "opened",
          repoFullName := "acme/widgets", payload := [1] } 5 3
        { projects := [{ id := 1, githubFullName := "acme/widgets", ownerUserId := 7 }],
          githubEvents := [], githubIssues := [], githubPullRequests := [],
          syncJobs := [], nextJobId := 0 }) "d-1" = 1 :=
  (c3_replay_idempotent
    (fun _ => some
      { action := "opened", repository := some "acme/widgets",
        issue := some
          { id := 70, number := 7, state := "open", title := "t",
            body := "b", htmlURL := "u", userLogin := "alice",
            createdAt := some 1, updatedAt := some 1, closedAt := none },
        pullRequest := none })
    { deliveryID := "d-1", event := "issues", action := "opened",
      repoFullName := "acme/widgets", payload := [1] } 5
    { projects := [{ id := 1, githubFullName := "acme/widgets", ownerUserId := 7 }],
      githubEvents := [], githubIssues := [], githubPullRequests := [],
      syncJobs := [], nextJobId := 0 } 3
    (by decide) (by decide) (by decide)).1

/-- C4 counterexample: re-delivering the `issues opened` event for a
registered project keeps the audit row count at 1 but enqueues two more
SyncJob rows (the queue grows from 2 to 4) — job creation is not deduplicated
by delivery id. -/
theorem c4_counterexample :
    countDelivery
      (ingest
        (fun _ => some
          { action := "opened", repository := some "acme/widgets",
            issue := some
              { id := 70, number := 7, state := "open", title := "t",
                body := "b", htmlURL := "u", userLogin := "alice",
                createdAt := some 1, updatedAt := some 1, closedAt := none },
            pullRequest := none })
        { deliveryID := "d-1", event := "issues", action := "opened",
          repoFullName := "acme/widgets", payload := [1] } 5
        (ingest
          (fun _ => some
            { action := "opened", repository := some "acme/widgets",
              issue := some
                { id := 70, number := 7, state := "open", title := "t",
                  body := "b", htmlURL := "u", userLogin := "alice",
                  createdAt := some 1, updatedAt := some 1, closedAt := none },
              pullRequest := none })
          { deliveryID := "d-1", event := "issues", action := "opened",
            repoFullName := "acme/widgets", payload := [1] } 5
          { projects := [{ id := 1, githubFullName := "acme/widgets", ownerUserId := 7 }],
            githubEvents := [], githubIssues := [], githubPullRequests := [],
            syncJobs := [], nextJobId := 0 })) "d-1" = 1 ∧
    (ingest
      (fun _ => some
        { action := "opened", repository := some "acme/widgets",
          issue := some
            { id := 70, number := 7, state := "open", title := "t",
              body := "b", htmlURL := "u", userLogin := "alice",
              createdAt := some 1, updatedAt := some 1, closedAt := none },
          pullRequest := none })
      { deliveryID := "d-1", event := "issues", action := "opened",
        repoFullName := "acme/widgets", payload := [1] } 5
      { projects := [{ id := 1, githubFullName := "acme/widgets", ownerUserId := 7 }],
        githubEvents := [], githubIssues := [], githubPullRequests := [],
        syncJobs := [], nextJobId := 0 }).syncJobs.length = 2 ∧
    (ingest
      (fun _ => some
        { action := "opened", repository := some "acme/widgets",
          issue := some
            { id := 70, number := 7, state := "open", title := "t",
              body := "b", htmlURL := "u", userLogin := "alice",
              createdAt := some 1, updatedAt := some 1, closedAt := none },
          pullRequest := none })
      { deliveryID := "d-1", event := "issues", action := "opened",
        repoFullName := "acme/widgets", payload := [1] } 5
      (ingest
        (fun _ => some
          { action := "opened", repository := some "acme/widgets",
            issue := some
              { id := 70, number := 7, state := "open", title := "t",
                body := "b", htmlURL := "u", userLogin := "alice",
                createdAt := some 1, updatedAt := some 1, closedAt := none },
            pullRequest := none })
        { deliveryID := "d-1", event := "issues", action := "opened",
          repoFullName := "acme/widgets", payload := [1] } 5
        { projects := [{ id := 1, githubFullName := "acme/widgets", ownerUserId := 7 }],
          githubEvents := [], githubIssues := [], githubPullRequests := [],
          syncJobs := [], nextJobId := 0 })).syncJobs.length = 4 := by
  decide

/-- C4 (amended): re-delivering an identical payload with the same delivery id
keeps the audit row count at 1 and the snapshot tables unchanged, but — job
creation not being deduplicated by delivery id — appends a fresh pair of
pending jobs whenever the project is mapped and the event type qualifies. -/
theorem c4_redelivery (parse : List Nat → Option GhWebhookEnvelope)
    (e : GitHubWebhookReceived) (now : Nat) (s : DBState)
    (hd : e.deliveryID ≠ "") (h0 : countDelivery s e.deliveryID = 0) :
    countDelivery (ingest parse e now (ingest parse e now s)) e.deliveryID = 1 ∧
    (ingest parse e now (ingest parse e now s)).githubIssues =
      (ingest parse e now s).githubIssues ∧
    (ingest parse e now (ingest parse e now s)).githubPullRequests =
      (ingest parse e now s).githubPullRequests ∧
    (∀ pid, resolvedProject s.projects ((parse e.payload).getD emptyEnvelope) e = some pid →
      (e.event = "issues" ∨ e.event = "pull_request" ∨ e.event = "push") →
      (ingest parse e now (ingest parse e now s)).syncJobs =
        (ingest parse e now s).syncJobs ++
          followUpJobs pid (ingest parse e now s).nextJobId now) := by
  have htab := ingest_ingest_tables parse e now s
  refine ⟨?_, htab.2.2.1, htab.2.2.2, ?_⟩
  · have h1 := countDelivery_first parse e now s hd h0
    unfold countDelivery at h1 ⊢
    rw [htab.2.1]
    exact h1
  · intro pid hpid hev
    have hpid' : resolvedProject (ingest parse e now s).projects
        ((parse e.payload).getD emptyEnvelope) e = some pid := by
      rw [ingest_projects]; exact hpid
    exact ingest_syncJobs_pos parse e now (ingest parse e now s) pid hpid' hev

/-- Witness for `c4_redelivery` at the concrete `issues opened` scenario. -/
theorem c4_amended_witness :
    countDelivery
      (ingest
        (fun _ => some
          { action := "opened", repository := some "acme/widgets",
            issue := some
              { id := 70, number := 7, state := "open", title := "t",
                body := "b", htmlURL := "u", userLogin := "alice",
                createdAt := some 1, updatedAt := some 1, closedAt := none },
            pullRequest := none })
        { deliveryID := "d-1", event := "issues", action := "opened",
          repoFullName := "acme/widgets", payload := [1] } 5
        (ingest
          (fun _ => some
            { action := "opened", repository := some "acme/widgets",
              issue := some
                { id := 70, number := 7, state := "open", title := "t",
                  body := "b", htmlURL := "u", userLogin := "alice",
                  createdAt := some 1, updatedAt := some 1, closedAt := none },
              pullRequest := none })
          { deliveryID := "d-1", event := "issues", action := "opened",
            repoFullName := "acme/widgets", payload := [1] } 5
          { projects := [{ id := 1, githubFullName := "acme/widgets", ownerUserId := 7 }],
            githubEvents := [], githubIssues := [], githubPullRequests := [],
            syncJobs := [], nextJobId := 0 })) "d-1" = 1 :=
  (c4_redelivery
    (fun _ => some
      { action := "opened", repository := some "acme/widgets",
        issue := some
          { id := 70, number := 7, state := "open", title := "t",
            body := "b", htmlURL := "u", userLogin := "alice",
            createdAt := some 1, updatedAt := some 1, closedAt := none },
        pullRequest := none })
    { deliveryID := "d-1", event := "issues", action := "opened",
      repoFullName := "acme/widgets", payload := [1] } 5
    { projects := [{ id := 1, githubFullName := "acme/widgets", ownerUserId := 7 }],
      githubEvents := [], githubIssues := [], githubPullRequests := [],
      syncJobs := [], nextJobId := 0 }
    (by decide) (by decide)).1

/-! ### Counting and lookup through the SQL upsert shape -/

theorem key_ite_upd {α : Type} (key : α → Bool) (upd : α → α)
    (hk : ∀ r, key (upd r) = key r) (a : α) :
    key (if key a then upd a else a) = key a := by
  by_cases ha : key a = true
  · simp [ha, hk]
  · simp [ha]

theorem countP_map_upd {α : Type} (key : α → Bool) (upd : α → α)
    (hk : ∀ r, key (upd r) = key r) (l : List α) :
    (l.map (fun r => if key r then upd r else r)).countP key = l.countP key := by
  induction l with
  | nil => rfl
  | cons a t ih =>
    rw [List.map_cons, List.countP_cons, List.countP_cons,
      key_ite_upd key upd hk a, ih]

theorem find?_map_upd {α : Type} (key : α → Bool) (upd : α → α)
    (hk : ∀ r, key (upd r) = key r) (l : List α) :
    (l.map (fun r => if key r then upd r else r)).find? key =
      (l.find? key).map (fun r => if key r then upd r else r) := by
  induction l with
  | nil => rfl
  | cons a t ih =>
    rw [List.map_cons]
    by_cases ha : key a = true
    · rw [List.find?_cons_of_pos _ (by rw [key_ite_upd key upd hk a]; exact ha),
        List.find?_cons_of_pos _ ha]
      rfl
    · rw [List.find?_cons_of_neg _ (by rw [key_ite_upd key upd hk a]; simpa using ha),
        List.find?_cons_of_neg _ (by simpa using ha), ih]

theorem find?_append_of_none {α : Type} (p : α → Bool) (l1 l2 : List α)
    (h : l1.find? p = none) : (l1 ++ l2).find? p = l2.find? p := by
  induction l1 with
  | nil => rfl
  | cons a t ih =>
    by_cases ha : p a = true
    · rw [List.find?_cons_of_pos _ ha] at h
      exact absurd h (by simp)
    · rw [List.find?_cons_of_neg _ (by simpa using ha)] at h
      rw [List.cons_append, List.find?_cons_of_neg _ (by simpa using ha), ih h]

theorem sqlUpsert_countP_of_zero {α : Type} (key : α → Bool) (upd : α → α)
    (ins : α) (rows : List α) (hins : key ins = true)
    (h0 : rows.countP key = 0) :
    (sqlUpsert key upd ins rows).countP key = 1 := by
  have hany : rows.any key = false := by
    rw [List.any_eq_false]
    intro x hx
    exact List.countP_eq_zero.mp h0 x hx
  rw [sqlUpsert_any_false key upd ins rows hany, List.countP_append, h0]
  simp [hins]

theorem sqlUpsert_countP_of_one {α : Type} (key : α → Bool) (upd : α → α)
    (ins : α) (rows : List α) (hk : ∀ r, key (upd r) = key r)
    (h1 : rows.countP key = 1) :
    (sqlUpsert key upd ins rows).countP key = 1 := by
  have hany : rows.any key = true := by
    rw [List.any_eq_true]
    have hpos : 0 < rows.countP key := by omega
    simpa using List.countP_pos_iff.mp hpos
  rw [sqlUpsert_any_true key upd ins rows hany, countP_map_upd key upd hk, h1]

theorem sqlUpsert_find?_of_zero {α : Type} (key : α → Bool) (upd : α → α)
    (ins : α) (rows : List α) (hins : key ins = true)
    (h0 : rows.countP key = 0) :
    (sqlUpsert key upd ins rows).find? key = some ins := by
  have hany : rows.any key = false := by
    rw [List.any_eq_false]
    intro x hx
    exact List.countP_eq_zero.mp h0 x hx
  have hnone : rows.find? key = none := by
    rw [List.find?_eq_none]
    intro x hx
    exact List.countP_eq_zero.mp h0 x hx
  rw [sqlUpsert_any_false key upd ins rows hany,
    find?_append_of_none key rows [ins] hnone,
    List.find?_cons_of_pos _ hins]

theorem sqlUpsert_find?_of_one {α : Type} (key : α → Bool) (upd : α → α)
    (ins : α) (rows : List α) (hk : ∀ r, key (upd r) = key r)
    (h1 : rows.countP key = 1) :
    ∃ r0, rows.find? key = some r0 ∧ key r0 = true ∧
      (sqlUpsert key upd ins rows).find? key = some (upd r0) := by
  have hany : rows.any key = true := by
    rw [List.any_eq_true]
    have hpos : 0 < rows.countP key := by omega
    simpa using List.countP_pos_iff.mp hpos
  have hsome : (rows.find? key).isSome := by
    rw [List.find?_isSome]
    exact List.any_eq_true.mp hany
  obtain ⟨r0, hr0⟩ := Option.isSome_iff_exists.mp hsome
  have hkey0 : key r0 = true := List.find?_some hr0
  refine ⟨r0, hr0, hkey0, ?_⟩
  rw [sqlUpsert_any_true key upd ins rows hany, find?_map_upd key upd hk, hr0]
  simp [hkey0]

/-- One upsert (webhook or bulk) against a table holding the key at most once
leaves exactly one row for the key, whose supplied columns carry the upsert's
values and whose `last_seen_at` is the upsert's clock. -/
theorem applyIssueUpsert_step (pid : Nat) (iid : Int) (rows : List IssueRow)
    (op : IssueUpsert) (hop : op.entityId = iid)
    (h01 : issueKeyCount rows pid iid = 0 ∨ issueKeyCount rows pid iid = 1) :
    issueKeyCount (applyIssueUpsert pid rows op) pid iid = 1 ∧
    ∃ r, findIssue (applyIssueUpsert pid rows op) pid iid = some r ∧
      suppliedFieldsMatch op r ∧ r.lastSeenAt = op.time := by
  cases op with
  | webhook p t =>
    have hid : p.id = iid := hop
    subst hid
    unfold issueKeyCount at h01
    unfold issueKeyCount findIssue
    show (upsertIssueWebhook rows pid p t).countP (issueKey pid p.id) = 1 ∧ _
    unfold upsertIssueWebhook
    have hins : issueKey pid p.id (webhookIssueInsert pid p t) = true := by
      simp [issueKey, webhookIssueInsert]
    have hk : ∀ r, issueKey pid p.id (webhookIssueUpdate p t r) =
        issueKey pid p.id r := fun r => rfl
    rcases h01 with h0 | h1
    · refine ⟨sqlUpsert_countP_of_zero _ _ _ _ hins h0,
        webhookIssueInsert pid p t,
        sqlUpsert_find?_of_zero _ _ _ _ hins h0, ?_, rfl⟩
      simp [suppliedFieldsMatch, webhookIssueInsert]
    · obtain ⟨r0, _, _, hfind⟩ :=
        sqlUpsert_find?_of_one (issueKey pid p.id) (webhookIssueUpdate p t)
          (webhookIssueInsert pid p t) rows hk h1
      refine ⟨sqlUpsert_countP_of_one _ _ _ _ hk h1,
        webhookIssueUpdate p t r0, hfind, ?_, rfl⟩
      simp [suppliedFieldsMatch, webhookIssueUpdate]
  | bulk it t =>
    have hid : it.id = iid := hop
    subst hid
    unfold issueKeyCount at h01
    unfold issueKeyCount findIssue
    show (upsertIssueBulk rows pid it t).countP (issueKey pid it.id) = 1 ∧ _
    unfold upsertIssueBulk
    have hins : issueKey pid it.id (bulkIssueInsert pid it t) = true := by
      simp [issueKey, bulkIssueInsert]
    have hk : ∀ r, issueKey pid it.id (bulkIssueUpdate it t r) =
        issueKey pid it.id r := fun r => rfl
    rcases h01 with h0 | h1
    · refine ⟨sqlUpsert_countP_of_zero _ _ _ _ hins h0,
        bulkIssueInsert pid it t,
        sqlUpsert_find?_of_zero _ _ _ _ hins h0, ?_, rfl⟩
      simp [suppliedFieldsMatch, bulkIssueInsert]
    · obtain ⟨r0, _, _, hfind⟩ :=
        sqlUpsert_find?_of_one (issueKey pid it.id) (bulkIssueUpdate it t)
          (bulkIssueInsert pid it t) rows hk h1
      refine ⟨sqlUpsert_countP_of_one _ _ _ _ hk h1,
        bulkIssueUpdate it t r0, hfind, ?_, rfl⟩
      simp [suppliedFieldsMatch, bulkIssueUpdate]

theorem applyIssueUpserts_append (pid : Nat) (rows : List IssueRow)
    (l : List IssueUpsert) (op : IssueUpsert) :
    applyIssueUpserts pid rows (l ++ [op]) =
      applyIssueUpsert pid (applyIssueUpserts pid rows l) op := by
  unfold applyIssueUpserts
  rw [List.foldl_append]
  rfl

/-- After a non-empty sequence of upserts for the key, exactly one row holds
the key, and its supplied columns and `last_seen_at` come from the last
upsert. -/
theorem applyIssueUpserts_state (pid : Nat) (iid : Int) :
    ∀ (l : List IssueUpsert) (rows : List IssueRow),
      (∀ op ∈ l, op.entityId = iid) →
      (issueKeyCount rows pid iid = 0 ∨ issueKeyCount rows pid iid = 1) →
      ∀ (hne : l ≠ []),
      issueKeyCount (applyIssueUpserts pid rows l) pid iid = 1 ∧
      ∃ r, findIssue (applyIssueUpserts pid rows l) pid iid = some r ∧
        suppliedFieldsMatch (l.getLast hne) r ∧
        r.lastSeenAt = (l.getLast hne).time := by
  intro l
  induction l using List.reverseRecOn with
  | nil => intro rows _ _ hne; exact absurd rfl hne
  | append_singleton l' op ih =>
    intro rows hops h01 hne
    rw [applyIssueUpserts_append]
    have hlast : (l' ++ [op]).getLast hne = op := List.getLast_concat _
    rw [hlast]
    rcases eq_or_ne l' [] with hl' | hne'
    · subst hl'
      exact applyIssueUpsert_step pid iid rows op (hops op (by simp)) h01
    · have hih := ih rows (fun x hx => hops x (by simp [hx])) h01 hne'
      exact applyIssueUpsert_step pid iid (applyIssueUpserts pid rows l') op
        (hops op (by simp)) (Or.inr hih.1)

/-- The state after the first `k+1` upserts of a sequence: one row for the
key, carrying the `(k+1)`-st upsert's supplied columns and clock. -/
theorem applyIssueUpserts_take (pid : Nat) (iid : Int) (ops : List IssueUpsert)
    (rows0 : List IssueRow) (hops : ∀ op ∈ ops, op.entityId = iid)
    (h0 : issueKeyCount rows0 pid iid = 0) (k : Nat) (hk : k < ops.length) :
    issueKeyCount (applyIssueUpserts pid rows0 (ops.take (k + 1))) pid iid = 1 ∧
    ∃ r, findIssue (applyIssueUpserts pid rows0 (ops.take (k + 1))) pid iid = some r ∧
      suppliedFieldsMatch (ops.get ⟨k, hk⟩) r ∧
      r.lastSeenAt = (ops.get ⟨k, hk⟩).time := by
  have htake : ops.take (k + 1) = ops.take k ++ [ops.get ⟨k, hk⟩] := by
    rw [List.take_succ]
    congr 1
    rw [List.getElem?_eq_getElem hk]
    rfl
  rw [htake, applyIssueUpserts_append]
  have h01 : issueKeyCount (applyIssueUpserts pid rows0 (ops.take k)) pid iid = 0 ∨
      issueKeyCount (applyIssueUpserts pid rows0 (ops.take k)) pid iid = 1 := by
    rcases Nat.eq_zero_or_pos k with hk0 | hkpos
    · subst hk0
      exact Or.inl h0
    · have hne : ops.take k ≠ [] := by
        have : (ops.take k).length = k := List.length_take_of_le (by omega)
        intro hc
        rw [hc] at this
        simp at this
        omega
      exact Or.inr (applyIssueUpserts_state pid iid (ops.take k) rows0
        (fun x hx => hops x (List.mem_of_mem_take hx)) (Or.inl h0) hne).1
  exact applyIssueUpsert_step pid iid _ (ops.get ⟨k, hk⟩)
    (hops _ (List.get_mem ops k hk)) h01

/-- C8: for a fixed (project, entity-id) key, after any non-empty sequence of
webhook/bulk upserts applied in order with a non-decreasing wall clock,
exactly one row holds the key; the columns supplied by the last-applied upsert
carry exactly its values, its `last_seen_at` is the last clock; and across the
prefixes of the sequence the key row's `last_seen_at` never decreases. -/
theorem c8_upsert_last_write_wins (pid : Nat) (iid : Int)
    (rows0 : List IssueRow) (ops : List IssueUpsert)
    (h0 : issueKeyCount rows0 pid iid = 0)
    (hops : ∀ op ∈ ops, op.entityId = iid) (hne : ops ≠ [])
    (hmono : ops.Pairwise (fun a b => a.time ≤ b.time)) :
    issueKeyCount (applyIssueUpserts pid rows0 ops) pid iid = 1 ∧
    (∃ r, findIssue (applyIssueUpserts pid rows0 ops) pid iid = some r ∧
      suppliedFieldsMatch (ops.getLast hne) r ∧
      r.lastSeenAt = (ops.getLast hne).time) ∧
    (∀ (i j : Nat) (hi : i < ops.length) (hj : j < ops.length), i ≤ j →
      ∀ ri rj,
        findIssue (applyIssueUpserts pid rows0 (ops.take (i + 1))) pid iid = some ri →
        findIssue (applyIssueUpserts pid rows0 (ops.take (j + 1))) pid iid = some rj →
        ri.lastSeenAt ≤ rj.lastSeenAt) := by
  have hmain := applyIssueUpserts_state pid iid ops rows0 hops (Or.inl h0) hne
  refine ⟨hmain.1, hmain.2, ?_⟩
  intro i j hi hj hij ri rj hri hrj
  obtain ⟨-, r1, hr1, -, ht1⟩ := applyIssueUpserts_take pid iid ops rows0 hops h0 i hi
  obtain ⟨-, r2, hr2, -, ht2⟩ := applyIssueUpserts_take pid iid ops rows0 hops h0 j hj
  have e1 : ri = r1 := by
    rw [hri] at hr1
    exact Option.some_inj.mp hr1
  have e2 : rj = r2 := by
    rw [hrj] at hr2
    exact Option.some_inj.mp hr2
  rw [e1, e2, ht1, ht2]
  rcases Nat.lt_or_ge j i with hlt | hge
  · omega
  · rcases Nat.eq_or_lt_of_le (by omega : i ≤ j) with heq | hlt2
    · subst heq
      exact le_refl _
    · exact List.pairwise_iff_get.mp hmono ⟨i, hi⟩ ⟨j, hj⟩
        (Fin.mk_lt_mk.mpr hlt2)

/-- Witness for `c8_upsert_last_write_wins`: a webhook upsert at clock 1
followed by a bulk upsert at clock 2. -/
theorem c8_witness :
    issueKeyCount
      (applyIssueUpserts 1 []
        [IssueUpsert.webhook
          { id := 70, number := 7, state := "open", title := "t0",
            body := "b0", htmlURL := "u", userLogin := "alice",
            createdAt := some 1, updatedAt := some 1, closedAt := none } 1,
         IssueUpsert.bulk
          { id := 70, number := 7, state := "closed", title := "t1",
            body := "b1", htmlURL := "u", userLogin := "alice",
            assigneesJson := "[]", labelsJson := "[]", commentsCount := 2,
            commentsJson := "[c]", isPullRequest := false } 2]) 1 70 = 1 :=
  (c8_upsert_last_write_wins 1 70 []
    [IssueUpsert.webhook
      { id := 70, number := 7, state := "open", title := "t0",
        body := "b0", htmlURL := "u", userLogin := "alice",
        createdAt := some 1, updatedAt := some 1, closedAt := none } 1,
     IssueUpsert.bulk
      { id := 70, number := 7, state := "closed", title := "t1",
        body := "b1", htmlURL := "u", userLogin := "alice",
        assigneesJson := "[]", labelsJson := "[]", commentsCount := 2,
        commentsJson := "[c]", isPullRequest := false } 2]
    (by decide) (by decide) (by decide) (by decide)).1

/-! ### The claim protocol: safety under arbitrary interleavings -/

theorem foldl_pick_mem (l : List SyncJobRow) :
    ∀ a : SyncJobRow,
      l.foldl (fun x b => if b.runAt < x.runAt then b else x) a ∈ a :: l := by
  induction l with
  | nil => intro a; simp
  | cons b t ih =>
    intro a
    simp only [List.foldl_cons]
    have h := ih (if b.runAt < a.runAt then b else a)
    rcases List.mem_cons.mp h with h1 | h1
    · rw [h1]
      by_cases hb : b.runAt < a.runAt
      · rw [if_pos hb]
        simp
      · rw [if_neg hb]
        simp
    · exact List.mem_cons.mpr (Or.inr (List.mem_cons.mpr (Or.inr h1)))

theorem pickMinRunAt_mem (l : List SyncJobRow) (j : SyncJobRow)
    (h : pickMinRunAt l = some j) : j ∈ l := by
  cases l with
  | nil => cases h
  | cons a t =>
    unfold pickMinRunAt at h
    have hmem := foldl_pick_mem t a
    have heq : t.foldl (fun x b => if b.runAt < x.runAt then b else x) a = j :=
      Option.some_inj.mp h
    exact heq ▸ hmem

theorem commitRow_id (jid w now j) : (commitRow jid w now j).id = j.id := by
  unfold commitRow; split <;> rfl

theorem commitRow_runAt (jid w now j) : (commitRow jid w now j).runAt = j.runAt := by
  unfold commitRow; split <;> rfl

theorem commitRow_of_ne (jid w now j) (h : j.id ≠ jid) :
    commitRow jid w now j = j := by
  unfold commitRow
  rw [if_neg]
  simpa using h

theorem commitRow_of_eq (jid w now j) (h : j.id = jid) :
    commitRow jid w now j =
      { j with status := "running", lockedBy := some w,
               lockedAt := some now, updatedAt := now } := by
  unfold commitRow
  rw [if_pos]
  simpa using h

/-- The members of `dueUnlocked`: pending, due, and unlocked rows. -/
theorem dueUnlocked_spec (s now j) (h : j ∈ dueUnlocked s now) :
    j ∈ s.jobs ∧ j.status = "pending" ∧ j.runAt ≤ now ∧
      s.openTx.any (fun t => t.2 == j.id) = false := by
  unfold dueUnlocked at h
  obtain ⟨hmem, hcond⟩ := List.mem_filter.mp h
  have hcond' := hcond
  simp only [Bool.and_eq_true, Bool.not_eq_true', beq_iff_eq,
    decide_eq_true_eq] at hcond'
  exact ⟨hmem, hcond'.1.1, hcond'.1.2, hcond'.2⟩

/-- Every step of the protocol preserves consistency. -/
theorem cstep_inv (s : ClaimState) (ev : WorkerEvent) (h : ClaimInv s) :
    ClaimInv (cstep s ev) := by
  obtain ⟨h1, h2, h3, h4, h5, h6⟩ := h
  cases ev with
  | sel w now =>
    unfold cstep
    cases hany : s.openTx.any (fun t => t.1 == w) with
    | true =>
      simp only [hany, if_true]
      exact ⟨h1, h2, h3, h4, h5, h6⟩
    | false =>
      simp only [hany, Bool.false_eq_true, if_false]
      cases hpick : pickMinRunAt (dueUnlocked s now) with
      | none =>
        simp only [hpick]
        exact ⟨h1, h2, h3, h4, h5, h6⟩
      | some j =>
        simp only [hpick]
        obtain ⟨hjmem, hjpend, -, hjunlocked⟩ :=
          dueUnlocked_spec s now j (pickMinRunAt_mem _ _ hpick)
        refine ⟨h1, ?_, ?_, ?_, h5, h6⟩
        · rw [List.map_cons, List.nodup_cons]
          refine ⟨?_, h2⟩
          intro hc
          obtain ⟨t, ht, htw⟩ := List.mem_map.mp hc
          have hne := List.any_eq_false.mp hany t ht
          simp only [beq_iff_eq] at hne
          exact hne htw
        · rw [List.map_cons, List.nodup_cons]
          refine ⟨?_, h3⟩
          intro hc
          obtain ⟨t, ht, htid⟩ := List.mem_map.mp hc
          have hne := List.any_eq_false.mp hjunlocked t ht
          simp only [beq_iff_eq] at hne
          exact hne htid
        · intro t ht
          rcases List.mem_cons.mp ht with rfl | ht'
          · exact ⟨j, hjmem, rfl, hjpend⟩
          · exact h4 t ht'
  | com w now =>
    unfold cstep
    cases hfind : s.openTx.find? (fun t => t.1 == w) with
    | none =>
      simp only [hfind]
      exact ⟨h1, h2, h3, h4, h5, h6⟩
    | some t =>
      simp only [hfind]
      have htmem : t ∈ s.openTx := List.mem_of_find?_eq_some hfind
      have htw : t.1 = w := by simpa using List.find?_some hfind
      obtain ⟨jt, hjtmem, hjtid, hjtpend⟩ := h4 t htmem
      have hids : (s.jobs.map (commitRow t.2 w now)).map (fun j => j.id) =
          s.jobs.map (fun j => j.id) := by
        rw [List.map_map]
        exact List.map_congr_left (fun j _ => commitRow_id t.2 w now j)
      have hrunnable : jt.status ≠ "running" := by
        rw [hjtpend]
        decide
      have hlognew : t.2 ∉ s.log.map (fun p => p.2) := by
        intro hc
        obtain ⟨p, hp, hpid⟩ := List.mem_map.mp hc
        exact hrunnable (h5 p hp jt hjtmem (hjtid.trans hpid.symm))
      refine ⟨?_, ?_, ?_, ?_, ?_, ?_⟩
      · rw [hids]
        exact h1
      · exact h2.sublist ((List.filter_sublist _).map _)
      · exact h3.sublist ((List.filter_sublist _).map _)
      · intro u hu
        obtain ⟨humem, hucond⟩ := List.mem_filter.mp hu
        have huw : u.1 ≠ w := by simpa using hucond
        obtain ⟨ju, hjumem, hjuid, hjupend⟩ := h4 u humem
        have hut : u ≠ t := fun hc => huw (hc ▸ htw)
        have hid_ne : u.2 ≠ t.2 := fun hc =>
          hut (List.inj_on_of_nodup_map h3 humem htmem hc)
        refine ⟨commitRow t.2 w now ju, List.mem_map_of_mem _ hjumem, ?_, ?_⟩
        · rw [commitRow_id]
          exact hjuid
        · rw [commitRow_of_ne _ _ _ _ (by rw [hjuid]; exact hid_ne)]
          exact hjupend
      · intro p hp j' hj' hj'id
        obtain ⟨j, hjmem, rfl⟩ := List.mem_map.mp hj'
        rw [commitRow_id] at hj'id
        rcases List.mem_append.mp hp with hpold | hpnew
        · have hpne : p.2 ≠ t.2 := by
            intro hc
            exact hrunnable (h5 p hpold jt hjtmem (hjtid.trans hc.symm))
          rw [commitRow_of_ne _ _ _ _ (by rw [hj'id]; exact hpne)]
          exact h5 p hpold j hjmem hj'id
        · have hpt : p = (w, t.2) := by simpa using hpnew
          rw [commitRow_of_eq _ _ _ _ (by rw [hj'id, hpt])]
      · rw [List.map_append, List.nodup_append]
        refine ⟨h6, by simp, ?_⟩
        intro x hx
        simp only [List.map_cons, List.map_nil, List.mem_singleton]
        intro hc
        exact hlognew (hc ▸ hx)

theorem crun_inv (evs : List WorkerEvent) :
    ∀ s : ClaimState, ClaimInv s → ClaimInv (crun s evs) := by
  induction evs with
  | nil => intro s h; exact h
  | cons e rest ih =>
    intro s h
    exact ih (cstep s e) (cstep_inv s e h)

theorem countP_map_flip {α : Type} (p : α → Bool) (g : α → α) :
    ∀ (l : List α), l.Nodup → ∀ x, x ∈ l → p x = true → p (g x) = false →
      (∀ y ∈ l, y ≠ x → g y = y) →
      (l.map g).countP p + 1 = l.countP p := by
  intro l
  induction l with
  | nil => intro _ x hx; cases hx
  | cons a t ih =>
    intro hl x hx hpx hgx hother
    rw [List.nodup_cons] at hl
    rcases List.mem_cons.mp hx with rfl | hxt
    · have ht : ∀ y ∈ t, g y = y := fun y hy =>
        hother y (List.mem_cons_of_mem _ hy) (fun hc => hl.1 (hc ▸ hy))
      rw [List.map_cons, List.countP_cons, List.countP_cons, hgx, hpx,
        list_map_id_of_mem t g ht]
      simp
    · have hax : a ≠ x := fun hc => hl.1 (hc ▸ hxt)
      rw [List.map_cons, List.countP_cons, List.countP_cons,
        hother a (List.mem_cons_self a t) hax]
      have hrec := ih hl.2 x hxt hpx hgx
        (fun y hy hyx => hother y (List.mem_cons_of_mem _ hy) hyx)
      omega

/-- A full round against a queue with no due pending work is a no-op. -/
theorem cround_of_no_pending (s : ClaimState) (w now : Nat)
    (hopen : s.openTx = [])
    (hnp : s.jobs.countP (fun j => j.status == "pending") = 0) :
    cround s w now = s := by
  have hdue : dueUnlocked s now = [] := by
    unfold dueUnlocked
    rw [List.filter_eq_nil_iff]
    intro j hj
    have := List.countP_eq_zero.mp hnp j hj
    simp only [Bool.and_eq_true, Bool.not_eq_true', beq_iff_eq,
      decide_eq_true_eq, not_and]
    intro hc
    exact absurd hc.1 (by simpa using this)
  have hsel : cstep s (WorkerEvent.sel w now) = s := by
    unfold cstep
    rw [hopen]
    simp [hdue, pickMinRunAt]
  unfold cround
  rw [hsel]
  unfold cstep
  rw [hopen]
  simp

/-- A full round against a queue with due pending work claims exactly one job:
the round invariant is preserved and the claim log grows by one entry. -/
theorem cround_of_pending (s0 s : ClaimState) (w now : Nat)
    (hri : RoundInv s0 s)
    (hdue : ∀ j0 ∈ s0.jobs, j0.runAt ≤ now)
    (hnp : 0 < s.jobs.countP (fun j => j.status == "pending")) :
    RoundInv s0 (cround s w now) ∧
    (cround s w now).log.length = s.log.length + 1 := by
  obtain ⟨hinv, hopen, hpairs, hstat, hcount⟩ := hri
  have hids : (s.jobs.map (fun j => j.id)).Nodup := hinv.1
  have hdue' : ∀ j ∈ s.jobs, j.runAt ≤ now := by
    intro j hj
    have hmem : (j.id, j.runAt) ∈ s.jobs.map (fun j => (j.id, j.runAt)) :=
      List.mem_map_of_mem _ hj
    rw [hpairs] at hmem
    obtain ⟨j0, hj0, hj0e⟩ := List.mem_map.mp hmem
    have hr : j0.runAt = j.runAt := congrArg Prod.snd hj0e
    rw [← hr]
    exact hdue j0 hj0
  obtain ⟨jp, hjp, hjpp⟩ := List.countP_pos_iff.mp hnp
  have hjpdue : dueUnlocked s now ≠ [] := by
    apply List.ne_nil_of_mem (a := jp)
    unfold dueUnlocked
    rw [List.mem_filter]
    refine ⟨hjp, ?_⟩
    rw [hopen]
    simp only [List.any_nil, Bool.not_false, Bool.and_true, Bool.and_eq_true,
      decide_eq_true_eq]
    exact ⟨by simpa using hjpp, hdue' jp hjp⟩
  obtain ⟨jstar, hpick⟩ : ∃ j, pickMinRunAt (dueUnlocked s now) = some j := by
    cases hdu : dueUnlocked s now with
    | nil => exact absurd hdu hjpdue
    | cons a t => exact ⟨_, rfl⟩
  obtain ⟨hjsmem, hjspend, -, -⟩ :=
    dueUnlocked_spec s now jstar (pickMinRunAt_mem _ _ hpick)
  have hsel : cstep s (WorkerEvent.sel w now) =
      { s with openTx := [(w, jstar.id)] } := by
    unfold cstep
    rw [hopen]
    simp [hpick]
  have hcom : cstep { s with openTx := [(w, jstar.id)] }
      (WorkerEvent.com w now) =
      { jobs := s.jobs.map (commitRow jstar.id w now),
        openTx := [], log := s.log ++ [(w, jstar.id)] } := by
    unfold cstep
    simp [List.find?]
  have hcround : cround s w now =
      { jobs := s.jobs.map (commitRow jstar.id w now),
        openTx := [], log := s.log ++ [(w, jstar.id)] } := by
    unfold cround
    rw [hsel, hcom]
  have hjobsnd : s.jobs.Nodup := List.Nodup.of_map _ hids
  have hflip : (s.jobs.map (commitRow jstar.id w now)).countP
        (fun j => j.status == "pending") + 1 =
      s.jobs.countP (fun j => j.status == "pending") := by
    apply countP_map_flip _ _ _ hjobsnd jstar hjsmem
    · simpa using hjspend
    · rw [commitRow_of_eq _ _ _ _ rfl]
      rfl
    · intro y hy hyne
      apply commitRow_of_ne
      intro hc
      exact hyne (List.inj_on_of_nodup_map hids hy hjsmem hc)
  have hclaim : ClaimInv (cround s w now) :=
    cstep_inv _ (WorkerEvent.com w now)
      (cstep_inv s (WorkerEvent.sel w now) hinv)
  constructor
  · refine ⟨hclaim, ?_, ?_, ?_, ?_⟩
    · rw [hcround]
    · rw [hcround]
      show (s.jobs.map (commitRow jstar.id w now)).map (fun j => (j.id, j.runAt)) = _
      have hcomp : ∀ j ∈ s.jobs,
          ((fun j => (j.id, j.runAt)) ∘ commitRow jstar.id w now) j =
            (fun j : SyncJobRow => (j.id, j.runAt)) j := fun j _ => by
        simp [Function.comp, commitRow_id, commitRow_runAt]
      rw [List.map_map, List.map_congr_left hcomp, hpairs]
    · rw [hcround]
      intro j' hj'
      obtain ⟨j, hj, rfl⟩ := List.mem_map.mp hj'
      by_cases hjid : j.id = jstar.id
      · right
        rw [commitRow_of_eq _ _ _ _ hjid]
        refine ⟨rfl, ?_⟩
        rw [List.map_append]
        apply List.mem_append.mpr
        right
        simp [hjid]
      · rw [commitRow_of_ne _ _ _ _ hjid]
        rcases hstat j hj with hp | ⟨hr, hmem⟩
        · exact Or.inl hp
        · exact Or.inr ⟨hr, by
            rw [List.map_append]
            exact List.mem_append.mpr (Or.inl hmem)⟩
    · rw [hcround]
      show (s.log ++ [(w, jstar.id)]).length + _ = _
      rw [List.length_append]
      simp only [List.length_singleton]
      omega
  · rw [hcround]
    show (s.log ++ [(w, jstar.id)]).length = _
    rw [List.length_append]
    rfl

theorem crounds_RoundInv (s0 : ClaimState) :
    ∀ (ws : List (Nat × Nat)) (s : ClaimState), RoundInv s0 s →
      (∀ p ∈ ws, ∀ j0 ∈ s0.jobs, j0.runAt ≤ p.2) →
      RoundInv s0 (crounds s ws) ∧
      (crounds s ws).log.length =
        min (s.log.length + ws.length) s0.jobs.length := by
  intro ws
  induction ws with
  | nil =>
    intro s hri _
    refine ⟨hri, ?_⟩
    have hcount := hri.2.2.2.2
    show s.log.length = min (s.log.length + 0) s0.jobs.length
    omega
  | cons p rest ih =>
    intro s hri hdue
    obtain ⟨w, t⟩ := p
    show RoundInv s0 (crounds (cround s w t) rest) ∧
      (crounds (cround s w t) rest).log.length = _
    by_cases hnp : s.jobs.countP (fun j => j.status == "pending") = 0
    · have hnoop := cround_of_no_pending s w t hri.2.1 hnp
      rw [hnoop]
      have hrest := ih s hri (fun q hq => hdue q (List.mem_cons_of_mem _ hq))
      refine ⟨hrest.1, ?_⟩
      rw [hrest.2]
      have hcount := hri.2.2.2.2
      simp only [List.length_cons]
      omega
    · have hpos : 0 < s.jobs.countP (fun j => j.status == "pending") :=
        Nat.pos_of_ne_zero hnp
      have hstep := cround_of_pending s0 s w t hri
        (hdue (w, t) (List.mem_cons_self _ _)) hpos
      have hrest := ih (cround s w t) hstep.1
        (fun q hq => hdue q (List.mem_cons_of_mem _ hq))
      refine ⟨hrest.1, ?_⟩
      rw [hrest.2, hstep.2]
      simp only [List.length_cons]
      omega

theorem RoundInv_init (s0 : ClaimState)
    (hids : (s0.jobs.map (fun j => j.id)).Nodup)
    (hopen : s0.openTx = []) (hlog : s0.log = [])
    (hpend : ∀ j ∈ s0.jobs, j.status = "pending") :
    RoundInv s0 s0 := by
  refine ⟨⟨hids, ?_, ?_, ?_, ?_, ?_⟩, hopen, rfl, ?_, ?_⟩
  · rw [hopen]; exact List.nodup_nil
  · rw [hopen]; exact List.nodup_nil
  · intro t ht
    rw [hopen] at ht
    cases ht
  · intro t ht
    rw [hlog] at ht
    cases ht
  · rw [hlog]; exact List.nodup_nil
  · intro j hj
    exact Or.inl (hpend j hj)
  · rw [hlog]
    simp only [List.length_nil, Nat.zero_add]
    rw [List.countP_eq_length]
    intro j hj
    simpa using hpend j hj

/-- C2: safety and exactness of the claim transaction.  (1) Under every
interleaving of `sel`/`com` steps by any set of workers, no job id ever
appears twice in the claim log: no two workers both move the same job to
`running`.  (2) When each claim transaction runs to completion (a `sel`
immediately followed by that worker's `com`, the round), any schedule of at
least K rounds over a K-job all-pending due queue claims every job exactly
once — each job ends `running`, claimed by exactly one worker.  The selection
and the update happen inside one transaction; the model reflects this by
having `sel` acquire the row lock that `com` releases, and `FOR UPDATE SKIP
LOCKED` is `dueUnlocked`'s exclusion of locked rows. -/
theorem c2_claim_exclusive (s0 : ClaimState)
    (hids : (s0.jobs.map (fun j => j.id)).Nodup)
    (hopen : s0.openTx = []) (hlog : s0.log = [])
    (hpend : ∀ j ∈ s0.jobs, j.status = "pending") :
    (∀ evs : List WorkerEvent,
      ((crun s0 evs).log.map (fun t => t.2)).Nodup) ∧
    (∀ ws : List (Nat × Nat),
      (∀ p ∈ ws, ∀ j0 ∈ s0.jobs, j0.runAt ≤ p.2) →
      s0.jobs.length ≤ ws.length →
      ∀ j ∈ s0.jobs,
        ((crounds s0 ws).log.filter (fun t => t.2 == j.id)).length = 1 ∧
        ∀ j' ∈ (crounds s0 ws).jobs, j'.id = j.id → j'.status = "running") := by
  have hri0 := RoundInv_init s0 hids hopen hlog hpend
  constructor
  · intro evs
    exact (crun_inv evs s0 hri0.1).2.2.2.2.2
  · intro ws hdue hlen j hj
    obtain ⟨hri, hloglen⟩ := crounds_RoundInv s0 ws s0 hri0 hdue
    obtain ⟨hinvF, hopenF, hpairsF, hstatF, hcountF⟩ := hri
    have hlen0 : s0.log.length = 0 := by rw [hlog]; rfl
    have hK : (crounds s0 ws).log.length = s0.jobs.length := by
      rw [hloglen, hlen0]
      omega
    have hcp0 : (crounds s0 ws).jobs.countP
        (fun j => j.status == "pending") = 0 := by omega
    have hrun : ∀ jx ∈ (crounds s0 ws).jobs,
        jx.status = "running" ∧
          jx.id ∈ (crounds s0 ws).log.map (fun t => t.2) := by
      intro jx hjx
      rcases hstatF jx hjx with hp | h
      · exact absurd (by simpa using hp)
          (List.countP_eq_zero.mp hcp0 jx hjx)
      · exact h
    constructor
    · have hmem : (j.id, j.runAt) ∈
          (crounds s0 ws).jobs.map (fun j => (j.id, j.runAt)) := by
        rw [hpairsF]
        exact List.mem_map_of_mem _ hj
      obtain ⟨j', hj'F, hj'e⟩ := List.mem_map.mp hmem
      have hj'id : j'.id = j.id := congrArg Prod.fst hj'e
      have hin : j.id ∈ (crounds s0 ws).log.map (fun t => t.2) :=
        hj'id ▸ (hrun j' hj'F).2
      have hnd : ((crounds s0 ws).log.map (fun t => t.2)).Nodup :=
        hinvF.2.2.2.2.2
      have hcnt : ((crounds s0 ws).log.map (fun t => t.2)).count j.id = 1 :=
        List.count_eq_one_of_mem hnd hin
      have hcnt' : ((crounds s0 ws).log.map (fun t => t.2)).countP
          (fun x => x == j.id) = 1 := hcnt
      rw [List.countP_map] at hcnt'
      rw [← List.countP_eq_length_filter]
      exact hcnt'
    · intro j'' hj'' _
      exact (hrun j'' hj'').1

/-- Witness for `c2_claim_exclusive`: two workers, two due pending jobs, two
rounds; job 1 is claimed exactly once. -/
theorem c2_witness :
    ((crounds
      { jobs := [
          { id := 1, projectId := 1, jobType := "sync_issues",
            status := "pending", runAt := 0, attempts := 0, lastError := none,
            lockedAt := none, lockedBy := none, createdAt := 0, updatedAt := 0 },
          { id := 2, projectId := 1, jobType := "sync_prs",
            status := "pending", runAt := 0, attempts := 0, lastError := none,
            lockedAt := none, lockedBy := none, createdAt := 0, updatedAt := 0 }],
        openTx := [], log := [] }
      [(10, 5), (11, 5)]).log.filter (fun t => t.2 == 1)).length = 1 :=
  ((c2_claim_exclusive
    { jobs := [
        { id := 1, projectId := 1, jobType := "sync_issues",
          status := "pending", runAt := 0, attempts := 0, lastError := none,
          lockedAt := none, lockedBy := none, createdAt := 0, updatedAt := 0 },
        { id := 2, projectId := 1, jobType := "sync_prs",
          status := "pending", runAt := 0, attempts := 0, lastError := none,
          lockedAt := none, lockedBy := none, createdAt := 0, updatedAt := 0 }],
      openTx := [], log := [] }
    (by decide) rfl rfl (by decide)).2
    [(10, 5), (11, 5)] (by decide) (by decide)
    { id := 1, projectId := 1, jobType := "sync_issues",
      status := "pending", runAt := 0, attempts := 0, lastError := none,
      lockedAt := none, lockedBy := none, createdAt := 0, updatedAt := 0 }
    (by decide)).1
